import Mathlib

/-!
Shallow embedding of `src/generate_pdf.py`, a three-stage HTML-to-PDF
pipeline: stage 1 renders a fixed HTML file to PDF through a headless
browser, stage 2 adds a branded footer to every page with PyMuPDF, and
stage 3 rasterizes every page of the result to numbered PNG files.

Machine reals (coordinates, font sizes) are modelled with `ℚ`; text
widths for the built-in `helv` font follow the standard Adobe Helvetica
AFM metrics (thousandths of an em) that PyMuPDF uses for the Base-14
fonts; python strings are Lean `String`s; the file system visible to one
stage is an association list from names to file data.
-/

namespace GenPdf

/-! ### Decimal rendering of natural numbers (python `str`/`format`) -/

/-- The character for a single decimal digit. -/
def digitChar (d : ℕ) : Char := Char.ofNat (48 + d)

/-- Fuel-driven decimal digit accumulation, mirroring how python renders a
nonnegative integer: emit `n % 10` and recurse on `n / 10`. -/
def decAux : ℕ → ℕ → List Char → List Char
  | 0, _, acc => acc
  | fuel + 1, n, acc =>
    if n < 10 then digitChar (n % 10) :: acc
    else decAux fuel (n / 10) (digitChar (n % 10) :: acc)

/-- Decimal rendering of a natural number, as python `str(n)`. -/
def pyDec (n : ℕ) : String := ⟨decAux (n + 1) n []⟩

/-- Python `f"\x7bn:02d\x7d"`: pad with a leading zero to width two. -/
def pad2 (n : ℕ) : String := if n < 10 then "0" ++ pyDec n else pyDec n

/-! ### Constants (generate_pdf.py, lines 20-47) -/

/-- File name of the generated PDF (`OUTPUT_PATH` relative to `BASE_DIR`). -/
def OUTPUT_NAME : String := "Inkline-RHF-Website-Consolidation-Proposal.pdf"

/-- `OUTPUT_PATH = BASE_DIR / "Inkline-RHF-Website-Consolidation-Proposal.pdf"`;
`BASE_DIR` is the directory holding the script, passed here as a parameter. -/
def OUTPUT_PATH (baseDir : String) : String := baseDir ++ "/" ++ OUTPUT_NAME

def PAGE_WIDTH : String := "8.5in"

def PAGE_HEIGHT : String := "14in"

/-- Footer strip height in mm. -/
def FOOTER_H_MM : ℕ := 10

/-- `FOOTER_H_PT = FOOTER_H_MM * 72 / 25.4` (about 28 points). -/
def FOOTER_H_PT : ℚ := (FOOTER_H_MM : ℚ) * 72 / 25.4

def MARGIN_TOP : String := "14mm"

def MARGIN_RIGHT : String := "0mm"

/-- `MARGIN_BOTTOM = f"\x7bFOOTER_H_MM + 4\x7dmm"` (footer + 4mm breathing room). -/
def MARGIN_BOTTOM : String := pyDec (FOOTER_H_MM + 4) ++ "mm"

def MARGIN_LEFT : String := "0mm"

/-- RGB 0-1 triples used by PyMuPDF. -/
abbrev Color := ℚ × ℚ × ℚ

def COBALT : Color := (0 / 255, 87 / 255, 184 / 255)

def GREY_MED : Color := (142 / 255, 142 / 255, 142 / 255)

def CERULEAN : Color := (19 / 255, 153 / 255, 204 / 255)

def BLACK : Color := (16 / 255, 16 / 255, 16 / 255)

/-! ### Helvetica metrics and `fitz.get_text_length` -/

/-- Advance width, in thousandths of an em, of a character in the Base-14
Helvetica font (`fontname="helv"`), after the Adobe AFM table. Characters
not used by this program fall back to 500. -/
def helvWidth (c : Char) : ℕ :=
  match c with
  | ' ' => 278 | ',' => 278 | '.' => 278 | ':' => 278 | '·' => 278
  | '+' => 584 | '-' => 333
  | '0' | '1' | '2' | '3' | '4' | '5' | '6' | '7' | '8' | '9' => 556
  | 'A' => 667 | 'B' => 667 | 'C' => 722 | 'D' => 722 | 'E' => 667
  | 'F' => 611 | 'G' => 778 | 'H' => 722 | 'I' => 278 | 'J' => 500
  | 'K' => 667 | 'L' => 556 | 'M' => 833 | 'N' => 722 | 'O' => 778
  | 'P' => 667 | 'Q' => 778 | 'R' => 722 | 'S' => 667 | 'T' => 611
  | 'U' => 722 | 'V' => 667 | 'W' => 944 | 'X' => 667 | 'Y' => 667
  | 'Z' => 611
  | 'a' => 556 | 'b' => 556 | 'c' => 500 | 'd' => 556 | 'e' => 556
  | 'f' => 278 | 'g' => 556 | 'h' => 556 | 'i' => 222 | 'j' => 222
  | 'k' => 500 | 'l' => 222 | 'm' => 833 | 'n' => 556 | 'o' => 556
  | 'p' => 556 | 'q' => 556 | 'r' => 333 | 's' => 500 | 't' => 278
  | 'u' => 556 | 'v' => 500 | 'w' => 722 | 'x' => 500 | 'y' => 500
  | 'z' => 500
  | _ => 500

/-- Width of a string in font units (thousandths of an em). -/
def strWidthU (s : String) : ℕ := (s.data.map helvWidth).sum

/-- `fitz.get_text_length(text, fontname, fontsize)` for the Base-14
Helvetica font: AFM advance widths scaled by the font size. -/
def get_text_length (text : String) (fontname : String) (fontsize : ℚ) : ℚ :=
  (strWidthU text : ℚ) * fontsize / 1000

/-! ### Geometry, page ops, documents (PyMuPDF objects) -/

structure Pt where
  x : ℚ
  y : ℚ
  deriving DecidableEq

/-- `fitz.Rect(x0, y0, x1, y1)`. -/
structure Rect where
  x0 : ℚ
  y0 : ℚ
  x1 : ℚ
  y1 : ℚ
  deriving DecidableEq

def Rect.width (r : Rect) : ℚ := r.x1 - r.x0

def Rect.height (r : Rect) : ℚ := r.y1 - r.y0

/-- A drawing/text operation applied to a page. -/
inductive Op where
  | drawRect (r : Rect) (color : Option Color) (fill : Option Color)
  | insertText (point : Pt) (text : String) (fontname : String)
      (fontsize : ℚ) (color : Color)
  deriving DecidableEq

/-- A PDF page: its media box and the content operations on it. -/
structure Page where
  rect : Rect
  ops : List Op
  deriving DecidableEq

/-- A PDF document as a list of pages. -/
structure Doc where
  pages : List Page
  deriving DecidableEq

def dummyPage : Page := { rect := ⟨0, 0, 0, 0⟩, ops := [] }

/-- `doc[i]` (indexing a document; only used at indices below the length). -/
def Doc.pageAt (d : Doc) (i : ℕ) : Page := d.pages.getD i dummyPage

/-! ### Stage 2 body: the per-page footer (add_branded_footer, lines 294-321) -/

/-- `left_txt` of `add_branded_footer`. -/
def left_txt : String :=
  "Inkline + Attention Strategy  ·  Rideau Hall Foundation Website Consolidation  ·  Confidential"

/-- `f"Version: \x7bversion_ts\x7d  ·  "`. -/
def versionRun (ts : String) : String := "Version: " ++ ts ++ "  ·  "

/-- `f"Page \x7bi + 1\x7d of \x7btotal\x7d"`. -/
def pgtxt (i total : ℕ) : String := "Page " ++ pyDec (i + 1) ++ " of " ++ pyDec total

/-- One iteration of the page loop of `add_branded_footer`: draw the footer
strip and insert the three text runs on page `i` of `total`, with `ts` the
`datetime.now().strftime("%B %d, %Y at %I:%M %p")` reading taken on this
iteration. -/
def footerPage (p : Page) (i total : ℕ) (ts : String) : Page :=
  let r := p.rect
  let fr : Rect := ⟨0, r.height - FOOTER_H_PT, r.width, r.height⟩
  let cy : ℚ := r.height - FOOTER_H_PT / 2 + 2
  let pfx := versionRun ts
  let pg := pgtxt i total
  let pw := get_text_length pfx "helv" 6.5
  let gw := get_text_length pg "helv" 6.5
  let rx := r.width - 28 - pw - gw
  { p with ops := p.ops ++
      [ Op.drawRect fr none (some BLACK),
        Op.insertText ⟨28, cy⟩ left_txt "helv" 6.5 GREY_MED,
        Op.insertText ⟨rx, cy⟩ pfx "helv" 6.5 GREY_MED,
        Op.insertText ⟨rx + pw, cy⟩ pg "helv" 6.5 CERULEAN ] }

/-- The document produced by the page loop of `add_branded_footer`:
`for i in range(total)`, page `i` gets a footer; `clock i` is the wall-clock
string sampled by `datetime.now()` on iteration `i`. -/
def add_branded_footer_doc (clock : ℕ → String) (doc : Doc) : Doc :=
  { pages := (List.range doc.pages.length).map
      (fun i => footerPage (doc.pageAt i) i doc.pages.length (clock i)) }

/-! ### Rasterization (Stage 3 primitives) -/

/-- `fitz.Matrix(zoom, zoom)` (only diagonal matrices are used). -/
structure Mat where
  a : ℚ
  d : ℚ
  deriving DecidableEq

/-- An opaque bitmap: `page.get_pixmap(matrix=mat)` is a library primitive,
modelled by its arguments. -/
structure Pix where
  page : Page
  mat : Mat
  deriving DecidableEq

/-! ### File system model -/

/-- Contents of a file produced by the pipeline. -/
inductive FileData where
  | pdf (d : Doc)
  | png (x : Pix)
  deriving DecidableEq

/-- A directory listing: names bound to file data. -/
abbrev Dir := List (String × FileData)

def lookupD (d : Dir) (n : String) : Option FileData := d.lookup n

def dirErase (d : Dir) (n : String) : Dir := d.filter (fun e => e.1 != n)

/-- Writing a file: any file of that name is replaced. -/
def dirWrite (d : Dir) (n : String) (v : FileData) : Dir := (n, v) :: dirErase d n

/-- A file-system operation performed by one stage. -/
inductive FileOp where
  | write (name : String) (v : FileData)
  | unlink (name : String)
  | replace (src dst : String)
  | mkdirp
  deriving DecidableEq

/-- Directory state: whether the directory exists, and its files. -/
structure DirSt where
  present : Bool
  files : Dir
  deriving DecidableEq

def applyFileOp (st : DirSt) : FileOp → DirSt
  | FileOp.write n v => { st with files := dirWrite st.files n v }
  | FileOp.unlink n => { st with files := dirErase st.files n }
  | FileOp.replace src dst =>
    match lookupD st.files src with
    | some v => { st with files := dirWrite (dirErase st.files src) dst v }
    | none => st
  | FileOp.mkdirp => { st with present := true }

def applyFileOps (st : DirSt) (ops : List FileOp) : DirSt := ops.foldl applyFileOp st

/-! ### Stage 2 as file-system operations (add_branded_footer, lines 323-327) -/

/-- The file operations of `add_branded_footer` on `pdf_path`: save the
annotated document to `pdf_path + ".tmp"`, then `Path(tmp_out).replace(pdf_path)`. -/
def add_branded_footer_ops (clock : ℕ → String) (pdf_path : String) (doc : Doc) :
    List FileOp :=
  [ FileOp.write (pdf_path ++ ".tmp") (FileData.pdf (add_branded_footer_doc clock doc)),
    FileOp.replace (pdf_path ++ ".tmp") pdf_path ]

/-- `add_branded_footer(pdf_path)` acting on the directory holding
`pdf_path`, given that `fitz.open(pdf_path)` read `doc` there. -/
def add_branded_footer (clock : ℕ → String) (pdf_path : String) (doc : Doc)
    (st : DirSt) : DirSt :=
  applyFileOps st (add_branded_footer_ops clock pdf_path doc)

/-! ### Stage 1 output write (generate_pdf, lines 500-513) -/

/-- The file operations of the render stage: `page.pdf(path=str(OUTPUT_PATH), ...)`
writes the rendered document directly to `OUTPUT_PATH`. -/
def render_stage_ops (baseDir : String) (rendered : Doc) : List FileOp :=
  [ FileOp.write (OUTPUT_PATH baseDir) (FileData.pdf rendered) ]

/-- The keyword arguments of the `page.pdf(...)` call. -/
structure PdfArgs where
  path : String
  width : String
  height : String
  print_background : Bool
  display_header_footer : Bool
  margin_top : String
  margin_right : String
  margin_bottom : String
  margin_left : String
  prefer_css_page_size : Bool
  deriving DecidableEq

/-- The `page.pdf` call of `generate_pdf` (lines 500-513). -/
def pdfCallArgs (baseDir : String) : PdfArgs :=
  { path := OUTPUT_PATH baseDir
    width := PAGE_WIDTH
    height := PAGE_HEIGHT
    print_background := true
    display_header_footer := false
    margin_top := MARGIN_TOP
    margin_right := MARGIN_RIGHT
    margin_bottom := MARGIN_BOTTOM
    margin_left := MARGIN_LEFT
    prefer_css_page_size := false }

/-! ### Stage 3: screenshot_pages (lines 334-350) -/

/-- `f"page_\x7bi + 1:02d\x7d.png"`. -/
def pageName (n : ℕ) : String := "page_" ++ pad2 n ++ ".png"

/-- Whether a directory entry name matches the glob `page_*.png`. -/
def matchesPagePng (n : String) : Bool :=
  "page_".data.isPrefixOf n.data && ".png".data.isSuffixOf n.data && 9 ≤ n.length

/-- The PNG files written by `screenshot_pages`: for `i in range(count)`,
`doc[i].get_pixmap(matrix=fitz.Matrix(zoom, zoom))` saved as
`page_\x7bi+1:02d\x7d.png`, with `zoom = dpi / 72`. -/
def shotEntries (doc : Doc) (dpi : ℚ) : List (String × FileData) :=
  (List.range doc.pages.length).map
    (fun i => (pageName (i + 1), FileData.png ⟨doc.pageAt i, ⟨dpi / 72, dpi / 72⟩⟩))

/-- The file operations of `screenshot_pages(pdf_path, out_dir, dpi)` on
`out_dir`: `out_dir.mkdir(parents=True, exist_ok=True)`, unlink every
current file matching `page_*.png`, then save one pixmap per page. -/
def screenshot_ops (doc : Doc) (st : DirSt) (dpi : ℚ) : List FileOp :=
  FileOp.mkdirp ::
    ((st.files.filter (fun e => matchesPagePng e.1)).map (fun e => FileOp.unlink e.1) ++
      (shotEntries doc dpi).map (fun e => FileOp.write e.1 e.2))

/-- `screenshot_pages`, given that `fitz.open(pdf_path)` read `doc`:
the resulting state of `out_dir`. The call in `generate_pdf` passes no
`dpi` argument, so the default `dpi = 110` applies. -/
def screenshot_pages (doc : Doc) (st : DirSt) (dpi : ℚ) : DirSt :=
  applyFileOps st (screenshot_ops doc st dpi)

/-! ### Stage 1 DOM work: page-break marking (generate_pdf, lines 395-425) -/

/-- What the break-marking script sees of a DOM element: its `id`, whether
it matches `section[style*="linear-gradient"]`, and its class list. -/
structure SElem where
  eid : String
  gradientStyled : Bool
  classes : List String
  deriving DecidableEq

/-- The DOM as the break-marking script traverses it. -/
structure MarkDom where
  els : List SElem
  deriving DecidableEq

/-- The eight `breakIds` of the in-page script. -/
def breakIds : List String :=
  ["approach", "ia", "seo", "considerations", "scope", "effort", "company", "next-steps"]

/-- `document.getElementById(id)`: index of the first element with that id. -/
def getById (dom : MarkDom) (i : String) : Option ℕ :=
  dom.els.findIdx? (fun e => e.eid == i)

/-- `el.classList.add(c)`: appends the class unless already present. -/
def classAdd (c : String) (cs : List String) : List String :=
  if c ∈ cs then cs else cs ++ [c]

def dfltEl : SElem := { eid := "", gradientStyled := false, classes := [] }

def markClassAt (dom : MarkDom) (j : ℕ) : MarkDom :=
  { els := dom.els.set j
      (let e := dom.els.getD j dfltEl
       { e with classes := classAdd "pdf-section-break" e.classes }) }

/-- `breakIds.forEach(...)` body: mark the element with this id, if present. -/
def markStep (st : MarkDom × ℕ) (i : String) : MarkDom × ℕ :=
  match getById st.1 i with
  | some j => (markClassAt st.1 j, st.2 + 1)
  | none => st

/-- `document.querySelector('section[style*="linear-gradient"]')`. -/
def findGradient (dom : MarkDom) : Option ℕ :=
  dom.els.findIdx? (fun e => e.gradientStyled)

/-- The whole break-marking `page.evaluate` script: mark the eight break
ids, then also the gradient next-steps section if not already marked;
returns the mutated DOM and the `marked` counter. -/
def markSections (dom : MarkDom) : MarkDom × ℕ :=
  let st := breakIds.foldl markStep (dom, 0)
  match findGradient st.1 with
  | some j =>
    if "pdf-section-break" ∈ (st.1.els.getD j dfltEl).classes then st
    else (markClassAt st.1 j, st.2 + 1)
  | none => st

/-! ### Stage 1 DOM work: portfolio-card expansion (lines 429-496) -/

/-- One entry of the `portfolioData` lookup table. -/
structure PEntry where
  narrative : String
  relevance : String
  refs : List String
  deriving DecidableEq

/-- The recovered `portfolioData` object: keys bound to entries. -/
abbrev Table := List (String × PEntry)

/-- A DOM node appended under `.portfolio-info`, kept as class name,
text content and children. -/
inductive DNode where
  | mk (className : String) (text : String) (kids : List DNode)

/-- What the expansion script sees of a `.portfolio-card`:
the trimmed-to-be `.portfolio-name` text (none if the element is missing),
the current `.portfolio-info` children (none if the element is missing),
and the card's class list. -/
structure PCard where
  nameText : Option String
  info : Option (List DNode)
  classes : List String

/-- `'const portfolioData = \x7b'`, the marker searched in script texts. -/
def marker : List Char := "const portfolioData = \x7b".data

/-- `txt.indexOf(pat)` on character lists. -/
def subIdx (pat : List Char) : List Char → Option ℕ
  | [] => if pat.isEmpty then some 0 else none
  | c :: cs =>
    if pat.isPrefixOf (c :: cs) then some 0
    else (subIdx pat cs).map (· + 1)

/-- `txt.indexOf(c, start)`: position of the first occurrence of the
character `c` at or after `start`. -/
def charIdxFrom (c : Char) (txt : List Char) (start : ℕ) : Option ℕ :=
  ((txt.drop start).findIdx? (fun x => x == c)).map (· + start)

/-- Update of the JS `braceCount` for one character. -/
def braceStepCnt (cnt : ℤ) (c : Char) : ℤ :=
  let cnt1 : ℤ := if c = '\x7b' then cnt + 1 else cnt
  if c = '\x7d' then cnt1 - 1 else cnt1

/-- The brace-counting loop: scanning `cs` with running count `cnt`
(a JS number), return the offset of the first position at which the
count returns to zero after the updates for that character. -/
def braceScan : List Char → ℤ → Option ℕ
  | [], _ => none
  | c :: cs, cnt =>
    if braceStepCnt cnt c = 0 then some 0
    else (braceScan cs (braceStepCnt cnt c)).map (· + 1)

/-- Recover the object-literal source from one script text containing the
marker at `idx`: take the first `'\x7b'` at or after `idx` and scan braces;
`txt.substring(startIdx, endIdx + 1)` where `endIdx` stays `startIdx` if the
braces never balance. The no-brace branch cannot occur when the marker was
found (the marker itself ends with `'\x7b'`); there the JS `eval` of an empty
slice throws and leaves no table. -/
def objStrAt (txt : List Char) (idx : ℕ) : Option String :=
  match charIdxFrom '\x7b' txt idx with
  | none => none
  | some s =>
    match braceScan (txt.drop s) 0 with
    | some off => some ⟨(txt.drop s).take (off + 1)⟩
    | none => some ⟨(txt.drop s).take 1⟩

/-- The script loop of the expansion `page.evaluate`: walk the inline
scripts, and on the first whose text contains the marker, recover the
object literal and evaluate it (`evalObj` stands for the borrowed JS
`eval`, returning none when it throws); the loop `break`s after that
script whether or not the `eval` succeeded. -/
def getPortfolioData (evalObj : String → Option Table) : List String → Option Table
  | [] => none
  | s :: rest =>
    match subIdx marker s.data with
    | none => getPortfolioData evalObj rest
    | some idx =>
      match objStrAt s.data idx with
      | none => none
      | some ostr => evalObj ostr

/-- The nodes appended to `.portfolio-info` for a table entry `data`:
narrative div, fixed relevance label, relevance div, and, when
`data.refs && data.refs.length`, a refs container holding one
`pdf-ref-tag` span per reference, in order. -/
def appendedNodes (data : PEntry) : List DNode :=
  [ DNode.mk "pdf-narrative" data.narrative [],
    DNode.mk "pdf-relevance-label" "Relevance to RHF Project" [],
    DNode.mk "pdf-relevance" data.relevance [] ] ++
  (if data.refs.isEmpty then []
   else [ DNode.mk "pdf-refs" "" (data.refs.map (fun r => DNode.mk "pdf-ref-tag" r [])) ])

/-- JS `String.prototype.trim`: strip whitespace from both ends. -/
def jsTrim (s : String) : String :=
  ⟨((s.data.dropWhile Char.isWhitespace).reverse.dropWhile Char.isWhitespace).reverse⟩

/-- The `cards.forEach(...)` body: skip a card with no `.portfolio-name`;
look its trimmed name up in the table and skip if absent; add the
`pdf-expanded` class; skip (without counting) if `.portfolio-info` is
missing; otherwise append the new nodes and count the card. -/
def enrichCard (tbl : Table) (card : PCard) : PCard × Bool :=
  match card.nameText with
  | none => (card, false)
  | some nm =>
    match tbl.lookup (jsTrim nm) with
    | none => (card, false)
    | some data =>
      let card1 := { card with classes := classAdd "pdf-expanded" card.classes }
      match card1.info with
      | none => (card1, false)
      | some kids => ({ card1 with info := some (kids ++ appendedNodes data) }, true)

/-- The whole expansion `page.evaluate` script over the inline script texts
and the `.portfolio-card` list: with no table recovered it returns 0 and
leaves every card alone; otherwise each card is processed by `enrichCard`
and the counted cards are tallied. -/
def expandCards (evalObj : String → Option Table) (scripts : List String)
    (cards : List PCard) : List PCard × ℕ :=
  match getPortfolioData evalObj scripts with
  | none => (cards, 0)
  | some tbl =>
    ((cards.map (fun c => (enrichCard tbl c).1)),
      (cards.filter (fun c => (enrichCard tbl c).2)).length)

/-! ### Observation helpers used by the statements -/

/-- Decimal value of a digit-character list (inverse of decimal rendering). -/
def unDec (cs : List Char) : ℕ := cs.foldl (fun a c => a * 10 + (c.toNat - 48)) 0

def Op.isText : Op → Bool
  | Op.insertText _ _ _ _ _ => true
  | Op.drawRect _ _ _ => false

def Op.isRect : Op → Bool
  | Op.insertText _ _ _ _ _ => false
  | Op.drawRect _ _ _ => true

def Op.textOf : Op → String
  | Op.insertText _ t _ _ _ => t
  | Op.drawRect _ _ _ => ""

def Op.point : Op → Pt
  | Op.insertText pt _ _ _ _ => pt
  | Op.drawRect _ _ _ => ⟨0, 0⟩

def dummyOp : Op := Op.drawRect ⟨0, 0, 0, 0⟩ none none

/-- Number of text runs drawn on a page. -/
def Page.textCount (p : Page) : ℕ := (p.ops.filter Op.isText).length

/-- Number of rectangles drawn on a page. -/
def Page.rectCount (p : Page) : ℕ := (p.ops.filter Op.isRect).length

/-- The text of the second-to-last operation of a page (for a footered
page, the `Version: ...` run). -/
def Page.versionText (p : Page) : String := (p.ops.getD (p.ops.length - 2) dummyOp).textOf

/-- The last operation of a page (for a footered page, the
`Page i+1 of total` run). -/
def Page.pageRun (p : Page) : Option Op := p.ops.getLast?

/-- The 8.5in x 14in US-Legal page rectangle, in points. -/
def legalRect : Rect := ⟨0, 0, 612, 1008⟩

/-- Net brace count of a character list: openers minus closers. -/
def braceNet (l : List Char) : ℤ := (l.count '\x7b' : ℤ) - (l.count '\x7d' : ℤ)

/-! ### The shape of `datetime.now().strftime("%B %d, %Y at %I:%M %p")` -/

def months : List String :=
  ["January", "February", "March", "April", "May", "June", "July",
   "August", "September", "October", "November", "December"]

def digitCharList : List Char := ['0', '1', '2', '3', '4', '5', '6', '7', '8', '9']

/-- The components of one `strftime("%B %d, %Y at %I:%M %p")` reading. -/
structure TsParts where
  month : String
  day : String
  year : String
  hour : String
  minute : String
  ampm : String

/-- `"%B %d, %Y at %I:%M %p"` assembled from its components. -/
def TsParts.render (t : TsParts) : String :=
  t.month ++ " " ++ t.day ++ ", " ++ t.year ++ " at " ++ t.hour ++ ":" ++ t.minute ++ " " ++ t.ampm

/-- The shape `strftime` guarantees: a month name, a two-digit day, a year
of at most four digits, a zero-padded 12-hour clock reading and an AM/PM tag. -/
def TsParts.Valid (t : TsParts) : Prop :=
  t.month ∈ months ∧
  t.day.length = 2 ∧ (∀ c ∈ t.day.data, c ∈ digitCharList) ∧
  1 ≤ t.year.length ∧ t.year.length ≤ 4 ∧ (∀ c ∈ t.year.data, c ∈ digitCharList) ∧
  t.hour.length = 2 ∧ (∀ c ∈ t.hour.data, c ∈ digitCharList) ∧
  t.minute.length = 2 ∧ (∀ c ∈ t.minute.data, c ∈ digitCharList) ∧
  (t.ampm = "AM" ∨ t.ampm = "PM")

instance (t : TsParts) : Decidable t.Valid := by
  unfold TsParts.Valid
  infer_instance

/-! ### Concrete instances used as test inputs -/

/-- An empty 8.5in x 14in page. -/
def pageL : Page := { rect := legalRect, ops := [] }

def docOne : Doc := { pages := [pageL] }

def docTwo : Doc := { pages := [pageL, pageL] }

/-- One concrete `strftime("%B %d, %Y at %I:%M %p")` reading. -/
def ts0 : String := "September 30, 2026 at 12:59 PM"

def ts1 : String := "January 01, 2026 at 01:00 AM"

def clock0 : ℕ → String := fun _ => ts0

def clock1 : ℕ → String := fun _ => ts1

/-- A run on which the clock advances between page iterations. -/
def clockAB : ℕ → String := fun i => if i = 0 then ts0 else ts1

/-- A DOM with none of the expected elements. -/
def domEmpty : MarkDom := { els := [] }

/-- A card with `.portfolio-name` and `.portfolio-info` both missing. -/
def cardNoName : PCard := { nameText := none, info := none, classes := [] }

/-- A card whose name is in the table but whose `.portfolio-info` is missing. -/
def cardNoInfo : PCard := { nameText := some "Acme", info := none, classes := [] }

def entry0 : PEntry := { narrative := "n", relevance := "r", refs := ["R1", "R2"] }

def table0 : Table := [("Acme", entry0)]

/-- A card whose (untrimmed) name resolves to a key of `table0` and whose
`.portfolio-info` element is present. -/
def cardFull : PCard := { nameText := some " Acme ", info := some [], classes := [] }

/-- A concrete inline-script text containing the marker. -/
def script0 : String := "const portfolioData = \x7bA: 1\x7d tail"

/-- A concrete stand-in for the JS `eval` of the recovered object literal. -/
def evalObj0 : String → Option Table :=
  fun o => if o = "\x7bA: 1\x7d" then some table0 else none

/-! ### Helper lemmas: decimal rendering -/

theorem str_ext {a b : String} (h : a.data = b.data) : a = b := by
  cases a
  cases b
  exact congrArg String.mk h

theorem digitChar_toNat (d : ℕ) (h : d < 10) : (digitChar d).toNat = 48 + d := by
  interval_cases d <;> decide

theorem digitChar_mem (d : ℕ) (h : d < 10) : digitChar d ∈ digitCharList := by
  interval_cases d <;> decide

theorem decAux_foldl (fuel : ℕ) : ∀ n acc, n < fuel →
    (decAux fuel n acc).foldl (fun a c => a * 10 + (c.toNat - 48)) 0 =
      acc.foldl (fun a c => a * 10 + (c.toNat - 48)) n := by
  induction fuel with
  | zero => exact fun n acc h => absurd h (Nat.not_lt_zero n)
  | succ f ih =>
    intro n acc h
    by_cases h10 : n < 10
    · simp only [decAux, if_pos h10, List.foldl_cons]
      have ht := digitChar_toNat (n % 10) (Nat.mod_lt _ (by norm_num))
      have : 0 * 10 + ((digitChar (n % 10)).toNat - 48) = n := by omega
      rw [this]
    · have hne : ¬ n < 10 := h10
      simp only [decAux, if_neg hne]
      have hdf : n / 10 < f := by
        have h1 : n / 10 < n := Nat.div_lt_self (by omega) (by norm_num)
        omega
      rw [ih (n / 10) (digitChar (n % 10) :: acc) hdf, List.foldl_cons]
      have ht := digitChar_toNat (n % 10) (Nat.mod_lt _ (by norm_num))
      have : n / 10 * 10 + ((digitChar (n % 10)).toNat - 48) = n := by omega
      rw [this]

theorem unDec_pyDec (n : ℕ) : unDec (pyDec n).data = n := by
  unfold unDec pyDec
  exact decAux_foldl (n + 1) n [] (Nat.lt_succ_self n)

theorem unDec_pad2 (n : ℕ) : unDec (pad2 n).data = n := by
  unfold pad2
  by_cases h10 : n < 10
  · rw [if_pos h10]
    have hd : ("0" ++ pyDec n).data = '0' :: (pyDec n).data := by
      rw [String.data_append]
      rfl
    rw [hd]
    unfold unDec
    rw [List.foldl_cons]
    have : (0 : ℕ) * 10 + ('0'.toNat - 48) = 0 := by decide
    rw [this]
    exact unDec_pyDec n
  · rw [if_neg h10]
    exact unDec_pyDec n

theorem pad2_inj : Function.Injective pad2 := by
  intro a b h
  have := congrArg (fun s => unDec s.data) h
  simpa [unDec_pad2] using this

theorem pageName_inj : Function.Injective pageName := by
  intro a b h
  apply pad2_inj
  apply str_ext
  have hd := congrArg String.data h
  unfold pageName at hd
  rw [String.data_append, String.data_append, String.data_append, String.data_append] at hd
  exact List.append_cancel_left (List.append_cancel_right hd)

theorem matches_pageName (k : ℕ) : matchesPagePng (pageName k) = true := by
  unfold matchesPagePng pageName
  rw [Bool.and_eq_true, Bool.and_eq_true]
  refine ⟨⟨?_, ?_⟩, ?_⟩
  · rw [List.isPrefixOf_iff_prefix, String.data_append, String.data_append]
    exact (List.prefix_append _ _).trans (by rw [List.append_assoc])
  · rw [List.isSuffixOf_iff_suffix, String.data_append]
    exact List.suffix_append _ _
  · simp only [decide_eq_true_eq, String.length_append]
    have : ("page_".length : ℕ) = 5 := by decide
    have h2 : (".png".length : ℕ) = 4 := by decide
    omega

/-! ### Helper lemmas: the association-list directory -/

theorem lookup_cons_self {α β : Type} [BEq α] [LawfulBEq α] (k : α) (v : β)
    (l : List (α × β)) : List.lookup k ((k, v) :: l) = some v := by
  simp [List.lookup]

theorem lookup_cons_ne {α β : Type} [BEq α] [LawfulBEq α] {m k : α} (v : β)
    (l : List (α × β)) (h : m ≠ k) : List.lookup m ((k, v) :: l) = List.lookup m l := by
  have hb : (m == k) = false := by simpa [beq_eq_false_iff_ne] using h
  show (match m == k with
    | true => some v
    | false => List.lookup m l) = List.lookup m l
  rw [hb]

theorem lookupD_dirErase (d : Dir) (n m : String) :
    lookupD (dirErase d n) m = if m = n then none else lookupD d m := by
  induction d with
  | nil => simp [lookupD, dirErase, List.lookup]
  | cons e rest ih =>
    obtain ⟨k, v⟩ := e
    simp only [lookupD, dirErase] at ih ⊢
    by_cases hkn : k = n
    · subst hkn
      rw [show ((k, v) :: rest).filter (fun e => e.1 != k) =
            rest.filter (fun e => e.1 != k) by simp [List.filter]]
      rw [ih]
      by_cases hmk : m = k
      · simp [hmk]
      · rw [if_neg hmk, if_neg hmk, lookup_cons_ne v rest hmk]
    · rw [show ((k, v) :: rest).filter (fun e => e.1 != n) =
            (k, v) :: rest.filter (fun e => e.1 != n) by
          rw [List.filter_cons]
          simp [hkn]]
      by_cases hmk : m = k
      · subst hmk
        rw [lookup_cons_self, lookup_cons_self, if_neg hkn]
      · rw [lookup_cons_ne v _ hmk, lookup_cons_ne v rest hmk, ih]

theorem lookupD_dirWrite (d : Dir) (n : String) (v : FileData) (m : String) :
    lookupD (dirWrite d n v) m = if m = n then some v else lookupD d m := by
  unfold dirWrite
  by_cases hmn : m = n
  · subst hmn
    rw [if_pos rfl]
    exact lookup_cons_self m v _
  · simp only [lookupD] at *
    rw [lookup_cons_ne v _ hmn, if_neg hmn]
    have := lookupD_dirErase d n m
    rw [if_neg hmn] at this
    exact this

theorem mem_of_lookupD_eq_some {d : Dir} {m : String} {v : FileData}
    (h : lookupD d m = some v) : (m, v) ∈ d := by
  induction d with
  | nil => simp [lookupD, List.lookup] at h
  | cons e rest ih =>
    obtain ⟨k, w⟩ := e
    by_cases hmk : m = k
    · subst hmk
      rw [lookupD, lookup_cons_self] at h
      obtain rfl : w = v := Option.some.inj h
      exact List.mem_cons_self _ _
    · rw [lookupD, lookup_cons_ne w rest hmk] at h
      exact List.mem_cons_of_mem _ (ih h)

theorem lookup_eq_none_of_not_mem_keys {α β : Type} [BEq α] [LawfulBEq α]
    {l : List (α × β)} {a : α} (h : a ∉ l.map Prod.fst) : l.lookup a = none := by
  induction l with
  | nil => rfl
  | cons e rest ih =>
    obtain ⟨k, w⟩ := e
    simp only [List.map_cons, List.mem_cons, not_or] at h
    rw [lookup_cons_ne w rest h.1]
    exact ih h.2

theorem lookup_of_mem_of_nodupKeys {α β : Type} [BEq α] [LawfulBEq α]
    {l : List (α × β)} {a : α} {b : β}
    (hmem : (a, b) ∈ l) (hnd : (l.map Prod.fst).Nodup) : l.lookup a = some b := by
  induction l with
  | nil => simp at hmem
  | cons e rest ih =>
    obtain ⟨k, w⟩ := e
    rcases List.mem_cons.mp hmem with he | hr
    · injection he with h1 h2
      subst h1
      subst h2
      exact lookup_cons_self a b rest
    · have hka : a ≠ k := by
        intro he
        subst he
        have : a ∈ rest.map Prod.fst := List.mem_map.mpr ⟨(a, b), hr, rfl⟩
        exact (List.nodup_cons.mp (by simpa using hnd)).1 this
      rw [lookup_cons_ne w rest hka]
      exact ih hr (List.nodup_cons.mp (by simpa using hnd)).2

/-! ### C7: fixed page geometry of the export call -/

/-- C7: the render stage exports the PDF at `OUTPUT_PATH` with page size
8.5in x 14in, margins 14mm top, 0mm right, 14mm bottom (10mm footer height
plus 4mm) and 0mm left, and `prefer_css_page_size` disabled, whatever the
base directory of the run. -/
theorem C7_pdf_export_args (baseDir : String) :
    (pdfCallArgs baseDir).path = OUTPUT_PATH baseDir ∧
    (pdfCallArgs baseDir).width = "8.5in" ∧
    (pdfCallArgs baseDir).height = "14in" ∧
    (pdfCallArgs baseDir).margin_top = "14mm" ∧
    (pdfCallArgs baseDir).margin_right = "0mm" ∧
    (pdfCallArgs baseDir).margin_bottom = "14mm" ∧
    (pdfCallArgs baseDir).margin_left = "0mm" ∧
    MARGIN_BOTTOM = pyDec (FOOTER_H_MM + 4) ++ "mm" ∧
    FOOTER_H_MM = 10 ∧
    (pdfCallArgs baseDir).prefer_css_page_size = false := by
  refine ⟨rfl, rfl, rfl, rfl, rfl, ?_, rfl, rfl, rfl, rfl⟩
  show MARGIN_BOTTOM = "14mm"
  decide

/-! ### Helper lemmas: the footered document -/

theorem applyFileOp_write (st : DirSt) (n : String) (v : FileData) :
    applyFileOp st (FileOp.write n v) = ⟨st.present, dirWrite st.files n v⟩ := rfl

theorem applyFileOp_unlink (st : DirSt) (n : String) :
    applyFileOp st (FileOp.unlink n) = ⟨st.present, dirErase st.files n⟩ := rfl

theorem applyFileOp_mkdirp (st : DirSt) :
    applyFileOp st FileOp.mkdirp = ⟨true, st.files⟩ := rfl

theorem applyFileOp_replace (st : DirSt) (src dst : String) (v : FileData)
    (h : lookupD st.files src = some v) :
    applyFileOp st (FileOp.replace src dst)
      = ⟨st.present, dirWrite (dirErase st.files src) dst v⟩ := by
  show (match lookupD st.files src with
    | some w => (⟨st.present, dirWrite (dirErase st.files src) dst w⟩ : DirSt)
    | none => st) = _
  rw [h]

theorem tmp_ne (p : String) : p ++ ".tmp" ≠ p := by
  intro h
  have hl := congrArg String.length h
  rw [String.length_append] at hl
  have h4 : (".tmp".length : ℕ) = 4 := by decide
  omega

theorem footered_length (clock : ℕ → String) (doc : Doc) :
    (add_branded_footer_doc clock doc).pages.length = doc.pages.length := by
  simp [add_branded_footer_doc]

theorem footered_pageAt (clock : ℕ → String) (doc : Doc) (i : ℕ)
    (h : i < doc.pages.length) :
    (add_branded_footer_doc clock doc).pageAt i
      = footerPage (doc.pageAt i) i doc.pages.length (clock i) := by
  have hpages : (add_branded_footer_doc clock doc).pages
      = (List.range doc.pages.length).map
          (fun j => footerPage (doc.pageAt j) j doc.pages.length (clock j)) := rfl
  show (add_branded_footer_doc clock doc).pages.getD i dummyPage = _
  rw [hpages]
  rw [List.getD_eq_getElem _ _ (by simpa using h)]
  simp

theorem footerPage_ops (p : Page) (i total : ℕ) (ts : String) :
    (footerPage p i total ts).ops = p.ops ++
      [ Op.drawRect ⟨0, p.rect.height - FOOTER_H_PT, p.rect.width, p.rect.height⟩
          none (some BLACK),
        Op.insertText ⟨28, p.rect.height - FOOTER_H_PT / 2 + 2⟩ left_txt "helv" 6.5 GREY_MED,
        Op.insertText ⟨p.rect.width - 28 - get_text_length (versionRun ts) "helv" 6.5
              - get_text_length (pgtxt i total) "helv" 6.5,
            p.rect.height - FOOTER_H_PT / 2 + 2⟩ (versionRun ts) "helv" 6.5 GREY_MED,
        Op.insertText ⟨p.rect.width - 28 - get_text_length (versionRun ts) "helv" 6.5
              - get_text_length (pgtxt i total) "helv" 6.5
              + get_text_length (versionRun ts) "helv" 6.5,
            p.rect.height - FOOTER_H_PT / 2 + 2⟩ (pgtxt i total) "helv" 6.5 CERULEAN ] := rfl

theorem footerPage_rect (p : Page) (i total : ℕ) (ts : String) :
    (footerPage p i total ts).rect = p.rect := rfl

theorem versionText_footerPage (p : Page) (i total : ℕ) (ts : String) :
    (footerPage p i total ts).versionText = versionRun ts := by
  unfold Page.versionText
  rw [footerPage_ops, List.length_append]
  have h4 : ([ Op.drawRect ⟨0, p.rect.height - FOOTER_H_PT, p.rect.width, p.rect.height⟩
          none (some BLACK),
        Op.insertText ⟨28, p.rect.height - FOOTER_H_PT / 2 + 2⟩ left_txt "helv" 6.5 GREY_MED,
        Op.insertText ⟨p.rect.width - 28 - get_text_length (versionRun ts) "helv" 6.5
              - get_text_length (pgtxt i total) "helv" 6.5,
            p.rect.height - FOOTER_H_PT / 2 + 2⟩ (versionRun ts) "helv" 6.5 GREY_MED,
        Op.insertText ⟨p.rect.width - 28 - get_text_length (versionRun ts) "helv" 6.5
              - get_text_length (pgtxt i total) "helv" 6.5
              + get_text_length (versionRun ts) "helv" 6.5,
            p.rect.height - FOOTER_H_PT / 2 + 2⟩ (pgtxt i total) "helv" 6.5 CERULEAN ]).length
      = 4 := rfl
  rw [h4]
  rw [show p.ops.length + 4 - 2 = p.ops.length + 2 by omega]
  rw [List.getD_append_right _ _ _ _ (by omega)]
  rw [show p.ops.length + 2 - p.ops.length = 2 by omega]
  rfl

theorem pageRun_footerPage (p : Page) (i total : ℕ) (ts : String) :
    (footerPage p i total ts).pageRun
      = some (Op.insertText ⟨p.rect.width - 28 - get_text_length (versionRun ts) "helv" 6.5
              - get_text_length (pgtxt i total) "helv" 6.5
              + get_text_length (versionRun ts) "helv" 6.5,
            p.rect.height - FOOTER_H_PT / 2 + 2⟩ (pgtxt i total) "helv" 6.5 CERULEAN) := by
  unfold Page.pageRun
  rw [footerPage_ops, List.getLast?_append]
  rfl

theorem versionRun_inj {a b : String} (h : versionRun a = versionRun b) : a = b := by
  unfold versionRun at h
  have hd := congrArg String.data h
  rw [String.data_append, String.data_append, String.data_append, String.data_append] at hd
  exact str_ext (List.append_cancel_left (List.append_cancel_right hd))

/-! ### C1: the footer stage preserves the page count -/

/-- C1: for every input PDF read at `pdf_path`, `add_branded_footer` saves a
document back to `pdf_path` whose page count equals the input page count:
no page is added or removed by the footer stage. -/
theorem C1_footer_preserves_page_count (clock : ℕ → String) (pdf_path : String)
    (doc : Doc) (st : DirSt)
    (hread : lookupD st.files pdf_path = some (FileData.pdf doc)) :
    lookupD (add_branded_footer clock pdf_path doc st).files pdf_path
        = some (FileData.pdf (add_branded_footer_doc clock doc)) ∧
    (add_branded_footer_doc clock doc).pages.length = doc.pages.length := by
  constructor
  · unfold add_branded_footer add_branded_footer_ops applyFileOps
    rw [List.foldl_cons, List.foldl_cons, List.foldl_nil]
    rw [applyFileOp_write]
    rw [applyFileOp_replace _ _ _ (FileData.pdf (add_branded_footer_doc clock doc))
      (by
        show lookupD (dirWrite st.files (pdf_path ++ ".tmp")
            (FileData.pdf (add_branded_footer_doc clock doc))) (pdf_path ++ ".tmp")
          = some (FileData.pdf (add_branded_footer_doc clock doc))
        rw [lookupD_dirWrite, if_pos rfl])]
    show lookupD (dirWrite (dirErase (dirWrite st.files (pdf_path ++ ".tmp")
        (FileData.pdf (add_branded_footer_doc clock doc))) (pdf_path ++ ".tmp")) pdf_path
        (FileData.pdf (add_branded_footer_doc clock doc))) pdf_path = _
    rw [lookupD_dirWrite, if_pos rfl]
  · exact footered_length clock doc

/-- Witness for C1 at a concrete one-page directory state. -/
theorem C1_footer_preserves_page_count_witness :
    lookupD (add_branded_footer clock0 "out.pdf" docOne
        ⟨true, [("out.pdf", FileData.pdf docOne)]⟩).files "out.pdf"
      = some (FileData.pdf (add_branded_footer_doc clock0 docOne)) ∧
    (add_branded_footer_doc clock0 docOne).pages.length = docOne.pages.length :=
  C1_footer_preserves_page_count clock0 "out.pdf" docOne
    ⟨true, [("out.pdf", FileData.pdf docOne)]⟩ rfl

/-! ### C3: operations drawn on each page by the footer stage -/

/-- C3 counterexample: on a one-page document the footer stage draws one
rectangle but three text runs (left line, version prefix, page number),
not two as claimed. -/
theorem C3_counterexample :
    Page.textCount ((add_branded_footer_doc clock0 docOne).pageAt 0) = 3 ∧
    ¬ Page.textCount ((add_branded_footer_doc clock0 docOne).pageAt 0) = 2 ∧
    Page.rectCount ((add_branded_footer_doc clock0 docOne).pageAt 0) = 1 := by
  refine ⟨rfl, ?_, rfl⟩
  intro h
  rw [show Page.textCount ((add_branded_footer_doc clock0 docOne).pageAt 0) = 3 from rfl] at h
  omega

/-- C3 amended: on every page the footer stage draws exactly one additional
rectangle — the full-width strip covering the bottom `FOOTER_H_PT` points of
the page — and exactly three additional text runs. -/
theorem C3_footer_ops_per_page (clock : ℕ → String) (doc : Doc) (i : ℕ)
    (hi : i < doc.pages.length) :
    Page.rectCount ((add_branded_footer_doc clock doc).pageAt i)
        = Page.rectCount (doc.pageAt i) + 1 ∧
    Op.drawRect ⟨0, (doc.pageAt i).rect.height - FOOTER_H_PT,
        (doc.pageAt i).rect.width, (doc.pageAt i).rect.height⟩ none (some BLACK)
      ∈ ((add_branded_footer_doc clock doc).pageAt i).ops ∧
    Page.textCount ((add_branded_footer_doc clock doc).pageAt i)
        = Page.textCount (doc.pageAt i) + 3 := by
  rw [footered_pageAt clock doc i hi]
  refine ⟨?_, ?_, ?_⟩
  · unfold Page.rectCount
    rw [footerPage_ops, List.filter_append, List.length_append]
    rfl
  · rw [footerPage_ops]
    exact List.mem_append_right _ (List.mem_cons_self _ _)
  · unfold Page.textCount
    rw [footerPage_ops, List.filter_append, List.length_append]
    rfl

/-- Witness for C3 (amended) on a concrete one-page document. -/
theorem C3_footer_ops_per_page_witness :
    Page.rectCount ((add_branded_footer_doc clock1 docOne).pageAt 0)
        = Page.rectCount (docOne.pageAt 0) + 1 ∧
    Op.drawRect ⟨0, (docOne.pageAt 0).rect.height - FOOTER_H_PT,
        (docOne.pageAt 0).rect.width, (docOne.pageAt 0).rect.height⟩ none (some BLACK)
      ∈ ((add_branded_footer_doc clock1 docOne).pageAt 0).ops ∧
    Page.textCount ((add_branded_footer_doc clock1 docOne).pageAt 0)
        = Page.textCount (docOne.pageAt 0) + 3 :=
  C3_footer_ops_per_page clock1 docOne 0 (by decide)

/-! ### C10: dependence on the per-page wall-clock readings -/

/-- C10: the footer stage output is a function of the input document and the
per-page clock readings (only readings at indices below the page count
matter); on identical input, a differing reading at page `i` changes that
page's `Version:` run; within one run, two pages can carry different
timestamps; and the `Page i+1 of total` run — text and position — does not
depend on the clock at all. -/
theorem C10_clock_dependence :
    (∀ (doc : Doc) (c1 c2 : ℕ → String),
      (∀ i, i < doc.pages.length → c1 i = c2 i) →
      add_branded_footer_doc c1 doc = add_branded_footer_doc c2 doc) ∧
    (∀ (doc : Doc) (c1 c2 : ℕ → String) (i : ℕ), i < doc.pages.length →
      c1 i ≠ c2 i →
      ((add_branded_footer_doc c1 doc).pageAt i).versionText
        ≠ ((add_branded_footer_doc c2 doc).pageAt i).versionText) ∧
    (∃ (doc : Doc) (c : ℕ → String) (i j : ℕ),
      i ≠ j ∧ i < doc.pages.length ∧ j < doc.pages.length ∧
      ((add_branded_footer_doc c doc).pageAt i).versionText
        ≠ ((add_branded_footer_doc c doc).pageAt j).versionText) ∧
    (∀ (doc : Doc) (c1 c2 : ℕ → String) (i : ℕ), i < doc.pages.length →
      ((add_branded_footer_doc c1 doc).pageAt i).pageRun
        = ((add_branded_footer_doc c2 doc).pageAt i).pageRun) := by
  refine ⟨?_, ?_, ?_, ?_⟩
  · intro doc c1 c2 hc
    unfold add_branded_footer_doc
    congr 1
    apply List.map_congr_left
    intro j hj
    rw [hc j (List.mem_range.mp hj)]
  · intro doc c1 c2 i hi hne
    rw [footered_pageAt c1 doc i hi, footered_pageAt c2 doc i hi,
      versionText_footerPage, versionText_footerPage]
    exact fun h => hne (versionRun_inj h)
  · refine ⟨docTwo, clockAB, 0, 1, by decide, by decide, by decide, ?_⟩
    rw [footered_pageAt clockAB docTwo 0 (by decide),
      footered_pageAt clockAB docTwo 1 (by decide),
      versionText_footerPage, versionText_footerPage]
    intro h
    exact absurd (versionRun_inj h) (by decide)
  · intro doc c1 c2 i hi
    rw [footered_pageAt c1 doc i hi, footered_pageAt c2 doc i hi,
      pageRun_footerPage, pageRun_footerPage]
    have hx : ∀ w pw1 pw2 gw : ℚ, w - 28 - pw1 - gw + pw1 = w - 28 - pw2 - gw + pw2 := by
      intro w pw1 pw2 gw
      ring
    rw [hx (doc.pageAt i).rect.width (get_text_length (versionRun (c1 i)) "helv" 6.5)
      (get_text_length (versionRun (c2 i)) "helv" 6.5)
      (get_text_length (pgtxt i doc.pages.length) "helv" 6.5)]

/-- Witness for C10 at two concrete clocks over a one-page document. -/
theorem C10_clock_dependence_witness :
    add_branded_footer_doc clock0 docOne = add_branded_footer_doc clockAB docOne ∧
    ((add_branded_footer_doc clock0 docOne).pageAt 0).versionText
        ≠ ((add_branded_footer_doc clock1 docOne).pageAt 0).versionText ∧
    ((add_branded_footer_doc clock0 docOne).pageAt 0).pageRun
        = ((add_branded_footer_doc clock1 docOne).pageAt 0).pageRun :=
  ⟨C10_clock_dependence.1 docOne clock0 clockAB
      (fun i hi => by
        have h0 : i = 0 := by
          have : docOne.pages.length = 1 := rfl
          omega
        subst h0
        rfl),
    C10_clock_dependence.2.1 docOne clock0 clock1 0 (by decide) (by decide),
    C10_clock_dependence.2.2.2 docOne clock0 clock1 0 (by decide)⟩

/-! ### C4: write-to-temporary-then-replace, footer stage only -/

theorem ne_tmp_of_last {s : String} (c : Char) (hc : s.data.getLast? = some c)
    (hne : c ≠ 'p') : ∀ q, s ≠ q ++ ".tmp" := by
  intro q hq
  apply hne
  have : s.data.getLast? = some 'p' := by
    rw [hq, String.data_append, List.getLast?_append]
    rfl
  rw [hc] at this
  exact Option.some.inj this

theorem pageName_ne_tmp (k : ℕ) : ∀ q, pageName k ≠ q ++ ".tmp" := by
  apply ne_tmp_of_last 'g'
  · unfold pageName
    rw [String.data_append, List.getLast?_append]
    rfl
  · decide

theorem outputPath_ne_tmp (b : String) : ∀ q, OUTPUT_PATH b ≠ q ++ ".tmp" := by
  apply ne_tmp_of_last 'f'
  · unfold OUTPUT_PATH
    rw [String.data_append, List.getLast?_append]
    rfl
  · decide

/-- C4: only the footer stage uses the write-to-temporary-then-replace
pattern. Its only write goes to `pdf_path + ".tmp"` and is followed by a
replace onto `pdf_path`; interrupted before the replace, the file at
`pdf_path` is unmodified, and after the replace no temporary remains. The
render stage performs a single direct write to `OUTPUT_PATH` and the
screenshot stage only writes the final `page_NN.png` names; neither stage
writes any `*.tmp` path or performs a replace. -/
theorem C4_write_patterns (clock : ℕ → String) (pdf_path baseDir : String)
    (doc rendered : Doc) (st sdir : DirSt) (dpi : ℚ) :
    (∀ nm v, FileOp.write nm v ∈ add_branded_footer_ops clock pdf_path doc →
        nm = pdf_path ++ ".tmp") ∧
    FileOp.replace (pdf_path ++ ".tmp") pdf_path ∈ add_branded_footer_ops clock pdf_path doc ∧
    lookupD (applyFileOps st ((add_branded_footer_ops clock pdf_path doc).take 1)).files
        pdf_path = lookupD st.files pdf_path ∧
    lookupD (add_branded_footer clock pdf_path doc st).files (pdf_path ++ ".tmp") = none ∧
    render_stage_ops baseDir rendered
        = [FileOp.write (OUTPUT_PATH baseDir) (FileData.pdf rendered)] ∧
    (∀ nm v, FileOp.write nm v ∈ render_stage_ops baseDir rendered →
        ∀ q, nm ≠ q ++ ".tmp") ∧
    (∀ s t, FileOp.replace s t ∉ render_stage_ops baseDir rendered) ∧
    (∀ nm v, FileOp.write nm v ∈ screenshot_ops doc sdir dpi →
        (∃ i, i < doc.pages.length ∧ nm = pageName (i + 1)) ∧ ∀ q, nm ≠ q ++ ".tmp") ∧
    (∀ s t, FileOp.replace s t ∉ screenshot_ops doc sdir dpi) := by
  refine ⟨?_, ?_, ?_, ?_, rfl, ?_, ?_, ?_, ?_⟩
  · intro nm v h
    simp only [add_branded_footer_ops, List.mem_cons, List.not_mem_nil, or_false] at h
    rcases h with h | h
    · exact (FileOp.write.injEq _ _ _ _ ▸ h).1
    · exact absurd h (by simp)
  · simp [add_branded_footer_ops]
  · unfold add_branded_footer_ops
    rw [List.take, List.take, applyFileOps, List.foldl_cons, List.foldl_nil,
      applyFileOp_write]
    show lookupD (dirWrite st.files (pdf_path ++ ".tmp")
        (FileData.pdf (add_branded_footer_doc clock doc))) pdf_path = _
    rw [lookupD_dirWrite, if_neg (fun h => tmp_ne pdf_path h.symm)]
  · unfold add_branded_footer add_branded_footer_ops applyFileOps
    rw [List.foldl_cons, List.foldl_cons, List.foldl_nil, applyFileOp_write,
      applyFileOp_replace _ _ _ (FileData.pdf (add_branded_footer_doc clock doc))
        (by
          show lookupD (dirWrite st.files (pdf_path ++ ".tmp")
              (FileData.pdf (add_branded_footer_doc clock doc))) (pdf_path ++ ".tmp")
            = some (FileData.pdf (add_branded_footer_doc clock doc))
          rw [lookupD_dirWrite, if_pos rfl])]
    show lookupD (dirWrite (dirErase (dirWrite st.files (pdf_path ++ ".tmp")
        (FileData.pdf (add_branded_footer_doc clock doc))) (pdf_path ++ ".tmp")) pdf_path
        (FileData.pdf (add_branded_footer_doc clock doc))) (pdf_path ++ ".tmp") = none
    rw [lookupD_dirWrite, if_neg (tmp_ne pdf_path), lookupD_dirErase, if_pos rfl]
  · intro nm v h
    simp only [render_stage_ops, List.mem_cons, List.not_mem_nil, or_false] at h
    injection h with h1 h2
    subst h1
    exact outputPath_ne_tmp baseDir
  · intro s t h
    simp [render_stage_ops] at h
  · intro nm v h
    simp only [screenshot_ops, List.mem_cons, List.mem_append, List.mem_map] at h
    rcases h with h | ⟨e, _, h⟩ | ⟨e, he, h⟩
    · exact absurd h (by simp)
    · exact absurd h (by simp)
    · obtain ⟨hnm, hv⟩ : e.1 = nm ∧ e.2 = v := by
        constructor
        · exact (FileOp.write.injEq _ _ _ _ ▸ h).1
        · exact (FileOp.write.injEq _ _ _ _ ▸ h).2
      subst hnm
      unfold shotEntries at he
      rw [List.mem_map] at he
      obtain ⟨i, hir, hei⟩ := he
      have h1 : e.1 = pageName (i + 1) := by rw [← hei]
      rw [h1]
      exact ⟨⟨i, List.mem_range.mp hir, rfl⟩, pageName_ne_tmp (i + 1)⟩
  · intro s t h
    simp only [screenshot_ops, List.mem_cons, List.mem_append, List.mem_map] at h
    rcases h with h | ⟨e, _, h⟩ | ⟨e, _, h⟩
    · exact absurd h (by simp)
    · exact absurd h (by simp)
    · exact absurd h (by simp)

/-- Witness for C4 at concrete stage inputs. -/
theorem C4_write_patterns_witness :
    ("out.pdf" ++ ".tmp" = "out.pdf" ++ ".tmp") ∧
    lookupD (applyFileOps ⟨true, [("out.pdf", FileData.pdf docOne)]⟩
        ((add_branded_footer_ops clock0 "out.pdf" docOne).take 1)).files "out.pdf"
      = lookupD (⟨true, [("out.pdf", FileData.pdf docOne)]⟩ : DirSt).files "out.pdf" ∧
    (∃ i, i < docOne.pages.length ∧ pageName 1 = pageName (i + 1)) :=
  ⟨(C4_write_patterns clock0 "out.pdf" "base" docOne docOne
      ⟨true, [("out.pdf", FileData.pdf docOne)]⟩ ⟨true, []⟩ 110).1
      ("out.pdf" ++ ".tmp") (FileData.pdf (add_branded_footer_doc clock0 docOne))
      (by simp [add_branded_footer_ops]),
    (C4_write_patterns clock0 "out.pdf" "base" docOne docOne
      ⟨true, [("out.pdf", FileData.pdf docOne)]⟩ ⟨true, []⟩ 110).2.2.1,
    ((C4_write_patterns clock0 "out.pdf" "base" docOne docOne
      ⟨true, [("out.pdf", FileData.pdf docOne)]⟩ ⟨true, []⟩ 110).2.2.2.2.2.2.2.1
      (pageName 1) (FileData.png ⟨pageL, ⟨110 / 72, 110 / 72⟩⟩)
      (by
        simp only [screenshot_ops, List.mem_cons, List.mem_append, List.mem_map]
        right
        right
        exact ⟨(pageName 1, FileData.png ⟨pageL, ⟨110 / 72, 110 / 72⟩⟩),
          by simp [shotEntries, docOne, Doc.pageAt], rfl⟩)).1⟩

/-! ### Helper lemmas: the screenshot stage -/

theorem dirSt_files_mk (p : Bool) (f : Dir) : (DirSt.mk p f).files = f := rfl

theorem dirSt_present_mk (p : Bool) (f : Dir) : (DirSt.mk p f).present = p := rfl

theorem applyFileOps_cons (st : DirSt) (op : FileOp) (ops : List FileOp) :
    applyFileOps st (op :: ops) = applyFileOps (applyFileOp st op) ops := rfl

theorem lookupD_applyFileOps_unlinks (ns : List String) (st : DirSt) (m : String) :
    lookupD (applyFileOps st (ns.map FileOp.unlink)).files m
      = if m ∈ ns then none else lookupD st.files m := by
  induction ns generalizing st with
  | nil => simp [applyFileOps]
  | cons n rest ih =>
    rw [List.map_cons, applyFileOps_cons, ih, applyFileOp_unlink, dirSt_files_mk]
    by_cases hm : m ∈ rest
    · simp [hm]
    · rw [if_neg hm, lookupD_dirErase]
      by_cases hmn : m = n
      · simp [hmn]
      · rw [if_neg hmn, if_neg (by simp [List.mem_cons, hmn, hm])]

theorem present_applyFileOps_unlinks (ns : List String) (st : DirSt) :
    (applyFileOps st (ns.map FileOp.unlink)).present = st.present := by
  induction ns generalizing st with
  | nil => rfl
  | cons n rest ih =>
    rw [List.map_cons, applyFileOps_cons, ih, applyFileOp_unlink, dirSt_present_mk]

theorem lookupD_applyFileOps_writes (es : List (String × FileData)) (st : DirSt)
    (m : String) (hnd : (es.map Prod.fst).Nodup) :
    lookupD (applyFileOps st (es.map (fun e => FileOp.write e.1 e.2))).files m
      = (es.lookup m).or (lookupD st.files m) := by
  induction es generalizing st with
  | nil => simp [applyFileOps, List.lookup]
  | cons e rest ih =>
    obtain ⟨n, v⟩ := e
    have hnd' : (rest.map Prod.fst).Nodup := (List.nodup_cons.mp (by simpa using hnd)).2
    have hnmem : n ∉ rest.map Prod.fst := (List.nodup_cons.mp (by simpa using hnd)).1
    rw [List.map_cons, applyFileOps_cons, ih _ hnd', applyFileOp_write, dirSt_files_mk]
    by_cases hmn : m = n
    · subst hmn
      rw [lookup_cons_self, lookupD_dirWrite, if_pos rfl,
        lookup_eq_none_of_not_mem_keys hnmem, Option.none_or]
      rfl
    · rw [lookup_cons_ne v rest hmn, lookupD_dirWrite, if_neg hmn]

theorem present_applyFileOps_writes (es : List (String × FileData)) (st : DirSt) :
    (applyFileOps st (es.map (fun e => FileOp.write e.1 e.2))).present = st.present := by
  induction es generalizing st with
  | nil => rfl
  | cons e rest ih =>
    rw [List.map_cons, applyFileOps_cons, ih, applyFileOp_write, dirSt_present_mk]

theorem shotEntries_keys (doc : Doc) (dpi : ℚ) :
    (shotEntries doc dpi).map Prod.fst
      = (List.range doc.pages.length).map (fun i => pageName (i + 1)) := by
  unfold shotEntries
  rw [List.map_map]
  rfl

theorem shotEntries_keys_nodup (doc : Doc) (dpi : ℚ) :
    ((shotEntries doc dpi).map Prod.fst).Nodup := by
  rw [shotEntries_keys]
  apply List.Nodup.map
  · intro a b hab
    have := pageName_inj hab
    omega
  · exact List.nodup_range _

theorem shotEntries_lookup (doc : Doc) (dpi : ℚ) (i : ℕ) (hi : i < doc.pages.length) :
    (shotEntries doc dpi).lookup (pageName (i + 1))
      = some (FileData.png ⟨doc.pageAt i, ⟨dpi / 72, dpi / 72⟩⟩) := by
  apply lookup_of_mem_of_nodupKeys _ (shotEntries_keys_nodup doc dpi)
  unfold shotEntries
  rw [List.mem_map]
  exact ⟨i, List.mem_range.mpr hi, rfl⟩

theorem shotEntries_lookup_isSome {doc : Doc} {dpi : ℚ} {m : String}
    (h : ((shotEntries doc dpi).lookup m).isSome = true) :
    ∃ i, i < doc.pages.length ∧ m = pageName (i + 1) := by
  obtain ⟨v, hv⟩ := Option.isSome_iff_exists.mp h
  have hmem : (m, v) ∈ shotEntries doc dpi := mem_of_lookupD_eq_some hv
  unfold shotEntries at hmem
  rw [List.mem_map] at hmem
  obtain ⟨i, hir, hei⟩ := hmem
  refine ⟨i, List.mem_range.mp hir, ?_⟩
  have := congrArg Prod.fst hei
  exact this.symm

/-- The full pointwise description of the directory after `screenshot_pages`:
fresh screenshots win; otherwise every `page_*.png` name reads as absent and
every other name is untouched. -/
theorem screenshot_files_lookup (doc : Doc) (st : DirSt) (dpi : ℚ) (m : String) :
    lookupD (screenshot_pages doc st dpi).files m
      = ((shotEntries doc dpi).lookup m).or
          (if matchesPagePng m then none else lookupD st.files m) := by
  unfold screenshot_pages screenshot_ops
  rw [applyFileOps_cons, applyFileOp_mkdirp]
  rw [show (st.files.filter (fun e => matchesPagePng e.1)).map (fun e => FileOp.unlink e.1)
      = ((st.files.filter (fun e => matchesPagePng e.1)).map Prod.fst).map FileOp.unlink by
    rw [List.map_map]
    rfl]
  unfold applyFileOps
  rw [List.foldl_append]
  rw [show ∀ s0 : DirSt, List.foldl applyFileOp s0
        ((shotEntries doc dpi).map (fun e => FileOp.write e.1 e.2))
      = applyFileOps s0 ((shotEntries doc dpi).map (fun e => FileOp.write e.1 e.2))
    from fun _ => rfl]
  rw [lookupD_applyFileOps_writes _ _ _ (shotEntries_keys_nodup doc dpi)]
  rw [show ∀ s0 : DirSt, List.foldl applyFileOp s0
        (((st.files.filter (fun e => matchesPagePng e.1)).map Prod.fst).map FileOp.unlink)
      = applyFileOps s0
          (((st.files.filter (fun e => matchesPagePng e.1)).map Prod.fst).map FileOp.unlink)
    from fun _ => rfl]
  rw [lookupD_applyFileOps_unlinks, dirSt_files_mk]
  congr 1
  by_cases hmm : matchesPagePng m
  · rw [if_pos hmm]
    by_cases hin : m ∈ (st.files.filter (fun e => matchesPagePng e.1)).map Prod.fst
    · rw [if_pos hin]
    · rw [if_neg hin]
      cases hl : lookupD st.files m with
      | none => rfl
      | some v =>
        exfalso
        apply hin
        rw [List.mem_map]
        refine ⟨(m, v), ?_, rfl⟩
        rw [List.mem_filter]
        exact ⟨mem_of_lookupD_eq_some hl, hmm⟩
  · rw [if_neg hmm]
    rw [if_neg (fun hin => ?_)]
    rw [List.mem_map] at hin
    obtain ⟨e, he, hem⟩ := hin
    rw [List.mem_filter] at he
    rw [← hem] at hmm
    exact hmm he.2

theorem screenshot_present (doc : Doc) (st : DirSt) (dpi : ℚ) :
    (screenshot_pages doc st dpi).present = true := by
  unfold screenshot_pages screenshot_ops
  rw [applyFileOps_cons, applyFileOp_mkdirp]
  rw [show (st.files.filter (fun e => matchesPagePng e.1)).map (fun e => FileOp.unlink e.1)
      = ((st.files.filter (fun e => matchesPagePng e.1)).map Prod.fst).map FileOp.unlink by
    rw [List.map_map]
    rfl]
  unfold applyFileOps
  rw [List.foldl_append]
  rw [show ∀ s0 : DirSt, List.foldl applyFileOp s0
        ((shotEntries doc dpi).map (fun e => FileOp.write e.1 e.2))
      = applyFileOps s0 ((shotEntries doc dpi).map (fun e => FileOp.write e.1 e.2))
    from fun _ => rfl]
  rw [present_applyFileOps_writes]
  rw [show ∀ s0 : DirSt, List.foldl applyFileOp s0
        (((st.files.filter (fun e => matchesPagePng e.1)).map Prod.fst).map FileOp.unlink)
      = applyFileOps s0
          (((st.files.filter (fun e => matchesPagePng e.1)).map Prod.fst).map FileOp.unlink)
    from fun _ => rfl]
  rw [present_applyFileOps_unlinks, dirSt_present_mk]

/-! ### C6: one numbered PNG per page at DPI 110 -/

/-- C6: after the screenshot stage (invoked, as in `generate_pdf`, with the
default `dpi = 110`), the file `page_NN.png` for page `i` holds the pixmap of
page `i` rendered with the zoom matrix `110/72` on both axes; every present
`page_*.png` file is one of the `n` fresh screenshots; and the `n` names are
pairwise distinct, so exactly `n` such files are written. -/
theorem C6_screenshots_per_page (doc : Doc) (st : DirSt) (i : ℕ)
    (hi : i < doc.pages.length) :
    lookupD (screenshot_pages doc st 110).files (pageName (i + 1))
        = some (FileData.png ⟨doc.pageAt i, ⟨(110 : ℚ) / 72, (110 : ℚ) / 72⟩⟩) ∧
    (∀ m, matchesPagePng m = true →
      (lookupD (screenshot_pages doc st 110).files m).isSome = true →
      ∃ j, j < doc.pages.length ∧ m = pageName (j + 1)) ∧
    (∀ j k, j < doc.pages.length → k < doc.pages.length →
      pageName (j + 1) = pageName (k + 1) → j = k) := by
  refine ⟨?_, ?_, ?_⟩
  · rw [screenshot_files_lookup, shotEntries_lookup doc 110 i hi]
    rfl
  · intro m hm hsome
    rw [screenshot_files_lookup, if_pos hm] at hsome
    cases hl : (shotEntries doc (110 : ℚ)).lookup m with
    | none =>
      rw [hl] at hsome
      simp [Option.none_or] at hsome
    | some v =>
      exact shotEntries_lookup_isSome (by rw [hl]; rfl)
  · intro j k _ _ h
    have := pageName_inj h
    omega

/-- Witness for C6 on a concrete one-page document and an empty directory. -/
theorem C6_screenshots_per_page_witness :
    lookupD (screenshot_pages docOne ⟨false, []⟩ 110).files (pageName 1)
      = some (FileData.png ⟨docOne.pageAt 0, ⟨(110 : ℚ) / 72, (110 : ℚ) / 72⟩⟩) :=
  (C6_screenshots_per_page docOne ⟨false, []⟩ 0 (by decide)).1

/-! ### C9: the screenshot directory is created and holds only fresh shots -/

/-- C9: `screenshot_pages` first ensures the output directory exists and
deletes every file matching `page_*.png`; afterwards the directory exists,
names not matching `page_*.png` are untouched, and the files matching
`page_*.png` are exactly the `n` freshly written screenshots — no stale
`page_*.png` file survives. -/
theorem C9_fresh_screenshot_dir (doc : Doc) (st : DirSt) (m : String) :
    (screenshot_pages doc st 110).present = true ∧
    (matchesPagePng m = false →
      lookupD (screenshot_pages doc st 110).files m = lookupD st.files m) ∧
    (matchesPagePng m = true →
      lookupD (screenshot_pages doc st 110).files m = (shotEntries doc 110).lookup m) := by
  refine ⟨screenshot_present doc st 110, ?_, ?_⟩
  · intro hm
    rw [screenshot_files_lookup, if_neg (by rw [hm]; exact fun h => nomatch h)]
    cases hl : (shotEntries doc (110 : ℚ)).lookup m with
    | none => rw [Option.none_or]
    | some v =>
      exfalso
      obtain ⟨j, _, hmj⟩ := shotEntries_lookup_isSome (by rw [hl]; rfl)
      rw [hmj, matches_pageName] at hm
      exact Bool.true_eq_false.mp hm
  · intro hm
    rw [screenshot_files_lookup, if_pos hm]
    cases (shotEntries doc (110 : ℚ)).lookup m with
    | none => rfl
    | some v => rfl

/-- Witness for C9 at a directory holding one stale screenshot and one
unrelated file. -/
theorem C9_fresh_screenshot_dir_witness :
    lookupD (screenshot_pages docOne
        ⟨true, [("page_07.png", FileData.pdf docOne), ("notes.txt", FileData.pdf docOne)]⟩
        110).files "notes.txt"
      = lookupD (⟨true, [("page_07.png", FileData.pdf docOne),
          ("notes.txt", FileData.pdf docOne)]⟩ : DirSt).files "notes.txt" ∧
    lookupD (screenshot_pages docOne
        ⟨true, [("page_07.png", FileData.pdf docOne), ("notes.txt", FileData.pdf docOne)]⟩
        110).files "page_07.png"
      = (shotEntries docOne 110).lookup "page_07.png" :=
  ⟨(C9_fresh_screenshot_dir docOne
      ⟨true, [("page_07.png", FileData.pdf docOne), ("notes.txt", FileData.pdf docOne)]⟩
      "notes.txt").2.1 (by decide),
   (C9_fresh_screenshot_dir docOne
      ⟨true, [("page_07.png", FileData.pdf docOne), ("notes.txt", FileData.pdf docOne)]⟩
      "page_07.png").2.2 (by decide)⟩

/-! ### C2: missing DOM elements -/

theorem foldl_markStep_of_absent : ∀ (ids : List String) (dom : MarkDom) (k : ℕ),
    (∀ i, i ∈ ids → getById dom i = none) →
    ids.foldl markStep (dom, k) = (dom, k) := by
  intro ids
  induction ids with
  | nil => intro dom k _; rfl
  | cons i rest ih =>
    intro dom k h
    rw [List.foldl_cons]
    have hstep : markStep (dom, k) i = (dom, k) := by
      unfold markStep
      rw [h i (List.mem_cons_self _ _)]
    rw [hstep]
    exact ih dom k (fun j hj => h j (List.mem_cons_of_mem _ hj))

/-- C2 counterexample: a DOM with none of the expected elements is processed
without any failure — the break-marking script returns the DOM unchanged with
a count of 0, a card with no `.portfolio-name` is skipped silently, and a
card with a table-matching name but no `.portfolio-info` only receives the
`pdf-expanded` class and is not counted. Nothing propagates as a failure. -/
theorem C2_counterexample :
    markSections domEmpty = (domEmpty, 0) ∧
    (∀ i, i ∈ breakIds → getById domEmpty i = none) ∧
    findGradient domEmpty = none ∧
    enrichCard table0 cardNoName = (cardNoName, false) ∧
    cardNoName.nameText = none ∧
    enrichCard table0 cardNoInfo = ({ cardNoInfo with classes := ["pdf-expanded"] }, false) ∧
    cardNoInfo.info = none := by
  refine ⟨by decide, by decide, by decide, rfl, rfl, rfl, rfl⟩

/-- C2 amended: a missing expected DOM element does not terminate the
process; it is silently skipped. Break-section ids and the gradient section
contribute nothing when absent; a card with no `.portfolio-name` is left
untouched and uncounted; a card whose name is in the table but whose
`.portfolio-info` is missing still gains the `pdf-expanded` class (a partial
mutation) but receives no appended content and is not counted. -/
theorem C2_missing_elements_skipped :
    (∀ dom : MarkDom, (∀ i, i ∈ breakIds → getById dom i = none) →
      findGradient dom = none → markSections dom = (dom, 0)) ∧
    (∀ (dom : MarkDom) (k : ℕ) (i : String), getById dom i = none →
      markStep (dom, k) i = (dom, k)) ∧
    (∀ (tbl : Table) (card : PCard), card.nameText = none →
      enrichCard tbl card = (card, false)) ∧
    (∀ (tbl : Table) (card : PCard) (nm : String) (data : PEntry),
      card.nameText = some nm → tbl.lookup (jsTrim nm) = some data → card.info = none →
      enrichCard tbl card
        = ({ card with classes := classAdd "pdf-expanded" card.classes }, false)) := by
  refine ⟨?_, ?_, ?_, ?_⟩
  · intro dom h hg
    unfold markSections
    rw [foldl_markStep_of_absent breakIds dom 0 h]
    show (match findGradient dom with
      | some j =>
        if "pdf-section-break" ∈ (dom.els.getD j dfltEl).classes then ((dom, 0) : MarkDom × ℕ)
        else (markClassAt dom j, 0 + 1)
      | none => ((dom, 0) : MarkDom × ℕ)) = (dom, 0)
    rw [hg]
  · intro dom k i h
    unfold markStep
    rw [h]
  · intro tbl card h
    unfold enrichCard
    rw [h]
  · intro tbl card nm data hname hlook hinfo
    simp only [enrichCard, hname, hlook, hinfo]

/-- Witness for C2 (amended) at the concrete empty DOM and concrete cards. -/
theorem C2_missing_elements_skipped_witness :
    markSections domEmpty = (domEmpty, 0) ∧
    enrichCard table0 cardNoName = (cardNoName, false) ∧
    enrichCard table0 cardNoInfo
      = ({ cardNoInfo with classes := classAdd "pdf-expanded" cardNoInfo.classes }, false) :=
  ⟨C2_missing_elements_skipped.1 domEmpty (by decide) (by decide),
   C2_missing_elements_skipped.2.2.1 table0 cardNoName rfl,
   C2_missing_elements_skipped.2.2.2 table0 cardNoInfo "Acme" entry0 rfl rfl rfl⟩

/-! ### Helper lemmas: brace counting and searching -/

theorem braceStep_net (c : ℤ) (x : Char) : braceStepCnt c x = c + braceNet [x] := by
  unfold braceStepCnt braceNet
  by_cases h1 : x = '\x7b'
  · subst h1
    simp [List.count_cons]
  · by_cases h2 : x = '\x7d'
    · subst h2
      simp [List.count_cons]
      omega
    · simp [List.count_cons, h1, h2]

theorem braceNet_cons (x : Char) (l : List Char) :
    braceNet (x :: l) = braceNet [x] + braceNet l := by
  unfold braceNet
  rw [List.count_cons, List.count_cons, List.count_cons, List.count_cons,
    List.count_nil, List.count_nil]
  push_cast
  ring

theorem braceScan_spec : ∀ (cs : List Char) (c : ℤ) (off : ℕ),
    braceScan cs c = some off →
    off < cs.length ∧ c + braceNet (cs.take (off + 1)) = 0 ∧
      ∀ j, 1 ≤ j → j ≤ off → c + braceNet (cs.take j) ≠ 0 := by
  intro cs
  induction cs with
  | nil =>
    intro c off h
    exact absurd h (by simp [braceScan])
  | cons x cs ih =>
    intro c off h
    unfold braceScan at h
    by_cases h0 : braceStepCnt c x = 0
    · rw [if_pos h0] at h
      obtain rfl : 0 = off := Option.some.inj h
      refine ⟨by simp, ?_, ?_⟩
      · rw [show (0 : ℕ) + 1 = 1 from rfl,
          show List.take 1 (x :: cs) = [x] from by rw [List.take_succ_cons, List.take_zero]]
        rw [← braceStep_net]
        exact h0
      · intro j hj1 hj2
        omega
    · rw [if_neg h0, Option.map_eq_some'] at h
      obtain ⟨off', hoff', rfl⟩ := h
      obtain ⟨ih1, ih2, ih3⟩ := ih (braceStepCnt c x) off' hoff'
      rw [braceStep_net] at ih2 ih3 h0
      refine ⟨by simpa using ih1, ?_, ?_⟩
      · rw [List.take_succ_cons, braceNet_cons]
        omega
      · intro j hj1 hj2
        cases j with
        | zero => omega
        | succ j' =>
          rw [List.take_succ_cons, braceNet_cons]
          by_cases hj0 : j' = 0
          · subst hj0
            rw [List.take_zero, show braceNet [] = 0 from rfl]
            omega
          · have := ih3 j' (by omega) (by omega)
            omega

theorem findIdx?_spec {α : Type} (p : α → Bool) (dflt : α) :
    ∀ (l : List α) (k : ℕ), List.findIdx? p l = some k →
      k < l.length ∧ p (l.getD k dflt) = true ∧ ∀ j, j < k → p (l.getD j dflt) = false := by
  intro l
  induction l with
  | nil =>
    intro k h
    exact absurd h (by simp)
  | cons x xs ih =>
    intro k h
    rw [List.findIdx?_cons] at h
    by_cases hx : p x = true
    · rw [if_pos hx] at h
      obtain rfl : 0 = k := Option.some.inj h
      exact ⟨Nat.succ_pos _, by simpa using hx, fun j hj => absurd hj (Nat.not_lt_zero j)⟩
    · rw [if_neg hx, List.findIdx?_succ] at h
      rw [Option.map_eq_some'] at h
      obtain ⟨k', hk', rfl⟩ := h
      obtain ⟨h1, h2, h3⟩ := ih k' hk'
      refine ⟨by simpa using h1, by simpa using h2, ?_⟩
      intro j hj
      cases j with
      | zero => simpa using Bool.of_not_eq_true hx
      | succ j' => simpa using h3 j' (by omega)

theorem getD_drop (l : List Char) (i k : ℕ) (hk : k < (l.drop i).length) :
    (l.drop i).getD k ' ' = l.getD (i + k) ' ' := by
  have hik : i + k < l.length := by
    rw [List.length_drop] at hk
    omega
  rw [List.getD_eq_getElem _ _ hk, List.getD_eq_getElem _ _ hik]
  exact List.getElem_drop l

theorem charIdxFrom_spec (c : Char) (txt : List Char) (idx strt : ℕ)
    (h : charIdxFrom c txt idx = some strt) :
    idx ≤ strt ∧ strt < txt.length ∧ txt.getD strt ' ' = c ∧
      ∀ j, idx ≤ j → j < strt → txt.getD j ' ' ≠ c := by
  unfold charIdxFrom at h
  rw [Option.map_eq_some'] at h
  obtain ⟨k, hk, rfl⟩ := h
  obtain ⟨h1, h2, h3⟩ := findIdx?_spec (fun x => x == c) ' ' (txt.drop idx) k hk
  have hlen := List.length_drop idx txt
  refine ⟨by omega, by omega, ?_, ?_⟩
  · rw [getD_drop txt idx k h1] at h2
    rw [show idx + k = k + idx by omega] at h2
    exact beq_iff_eq.mp (by simpa using h2)
  · intro j hj1 hj2
    have hj' : j - idx < k := by omega
    have := h3 (j - idx) hj'
    rw [getD_drop txt idx (j - idx) (by omega)] at this
    rw [show idx + (j - idx) = j by omega] at this
    intro he
    rw [he] at this
    simp at this

theorem subIdx_prefix : ∀ (pat txt : List Char) (k : ℕ), subIdx pat txt = some k →
    pat.isPrefixOf (txt.drop k) = true := by
  intro pat txt
  induction txt with
  | nil =>
    intro k h
    unfold subIdx at h
    by_cases hp : pat.isEmpty = true
    · rw [if_pos hp] at h
      obtain rfl : 0 = k := Option.some.inj h
      rw [List.isEmpty_iff.mp hp]
      rfl
    · rw [if_neg hp] at h
      exact absurd h (by simp)
  | cons c cs ih =>
    intro k h
    unfold subIdx at h
    by_cases hp : pat.isPrefixOf (c :: cs) = true
    · rw [if_pos hp] at h
      obtain rfl : 0 = k := Option.some.inj h
      simpa using hp
    · rw [if_neg hp, Option.map_eq_some'] at h
      obtain ⟨k', hk', rfl⟩ := h
      rw [show List.drop (k' + 1) (c :: cs) = cs.drop k' from rfl]
      exact ih k' hk'

theorem marker_has_brace (txt : List Char) (idx : ℕ)
    (h : subIdx marker txt = some idx) :
    ∃ strt, charIdxFrom '\x7b' txt idx = some strt := by
  have hpre := subIdx_prefix marker txt idx h
  rw [List.isPrefixOf_iff_prefix] at hpre
  have hmem : '\x7b' ∈ txt.drop idx := hpre.subset (by decide)
  unfold charIdxFrom
  cases hfi : (txt.drop idx).findIdx? (fun x => x == '\x7b') with
  | some k => exact ⟨k + idx, rfl⟩
  | none =>
    rw [List.findIdx?_eq_none_iff] at hfi
    have := hfi '\x7b' hmem
    simp at this

/-! ### C5: table extraction and card enrichment -/

/-- C5: the lookup table is taken from the first inline script containing
`'const portfolioData = \x7b'` (scripts without the marker are skipped, no
scripts yield no table); the object literal handed to the JS `eval` is the
slice from the first `'\x7b'` at or after the marker up to the first position
where the running brace count returns to zero; with no table every card is
left alone and the count is 0; with a table, each card whose trimmed
`.portfolio-name` is a key gets `pdf-expanded` plus, on its
`.portfolio-info`, the narrative, the fixed label `'Relevance to RHF
Project'`, the relevance text, and one reference-tag span per refs element
in order (none when refs is empty); cards whose name is missing or not a
key are not enriched. -/
theorem C5_portfolio_enrichment :
    (∀ e : String → Option Table, getPortfolioData e [] = none) ∧
    (∀ (e : String → Option Table) (s : String) (rest : List String),
      subIdx marker s.data = none →
      getPortfolioData e (s :: rest) = getPortfolioData e rest) ∧
    (∀ (e : String → Option Table) (s : String) (rest : List String) (idx strt off : ℕ),
      subIdx marker s.data = some idx →
      charIdxFrom '\x7b' s.data idx = some strt →
      braceScan (s.data.drop strt) 0 = some off →
      getPortfolioData e (s :: rest) = e ⟨(s.data.drop strt).take (off + 1)⟩ ∧
      braceNet ((s.data.drop strt).take (off + 1)) = 0 ∧
      (∀ j, 1 ≤ j → j ≤ off → braceNet ((s.data.drop strt).take j) ≠ 0)) ∧
    (∀ (s : String) (idx : ℕ), subIdx marker s.data = some idx →
      ∃ strt, charIdxFrom '\x7b' s.data idx = some strt ∧
        idx ≤ strt ∧ s.data.getD strt ' ' = '\x7b' ∧
        (∀ j, idx ≤ j → j < strt → s.data.getD j ' ' ≠ '\x7b')) ∧
    (∀ (e : String → Option Table) (scripts : List String) (cards : List PCard),
      getPortfolioData e scripts = none → expandCards e scripts cards = (cards, 0)) ∧
    (∀ (e : String → Option Table) (scripts : List String) (cards : List PCard)
        (tbl : Table), getPortfolioData e scripts = some tbl →
      expandCards e scripts cards
        = (cards.map (fun c => (enrichCard tbl c).1),
            (cards.filter (fun c => (enrichCard tbl c).2)).length)) ∧
    (∀ (tbl : Table) (card : PCard) (nm : String) (data : PEntry) (kids : List DNode),
      card.nameText = some nm → tbl.lookup (jsTrim nm) = some data →
      card.info = some kids →
      enrichCard tbl card
        = ({ card with
              classes := classAdd "pdf-expanded" card.classes,
              info := some (kids ++ appendedNodes data) }, true)) ∧
    (∀ data : PEntry, ¬ data.refs = [] →
      appendedNodes data
        = [DNode.mk "pdf-narrative" data.narrative [],
           DNode.mk "pdf-relevance-label" "Relevance to RHF Project" [],
           DNode.mk "pdf-relevance" data.relevance [],
           DNode.mk "pdf-refs" "" (data.refs.map (fun r => DNode.mk "pdf-ref-tag" r []))]) ∧
    (∀ data : PEntry, data.refs = [] →
      appendedNodes data
        = [DNode.mk "pdf-narrative" data.narrative [],
           DNode.mk "pdf-relevance-label" "Relevance to RHF Project" [],
           DNode.mk "pdf-relevance" data.relevance []]) ∧
    (∀ (tbl : Table) (card : PCard) (nm : String),
      card.nameText = some nm → tbl.lookup (jsTrim nm) = none →
      enrichCard tbl card = (card, false)) := by
  refine ⟨fun e => rfl, ?_, ?_, ?_, ?_, ?_, ?_, ?_, ?_, ?_⟩
  · intro e s rest h
    simp only [getPortfolioData, h]
  · intro e s rest idx strt off h1 h2 h3
    refine ⟨?_, ?_, ?_⟩
    · simp only [getPortfolioData, h1, objStrAt, h2, h3]
    · have := (braceScan_spec _ _ _ h3).2.1
      omega
    · intro j hj1 hj2
      have := (braceScan_spec _ _ _ h3).2.2 j hj1 hj2
      omega
  · intro s idx h
    obtain ⟨strt, hstrt⟩ := marker_has_brace s.data idx h
    obtain ⟨hle, _, hat, hbefore⟩ := charIdxFrom_spec '\x7b' s.data idx strt hstrt
    exact ⟨strt, hstrt, hle, hat, hbefore⟩
  · intro e scripts cards h
    simp only [expandCards, h]
  · intro e scripts cards tbl h
    simp only [expandCards, h]
  · intro tbl card nm data kids hname hlook hinfo
    simp only [enrichCard, hname, hlook, hinfo]
  · intro data h
    unfold appendedNodes
    rw [if_neg (by simpa [List.isEmpty_iff] using h)]
    rfl
  · intro data h
    unfold appendedNodes
    rw [if_pos (by simpa [List.isEmpty_iff] using h)]
    rfl
  · intro tbl card nm hname hlook
    simp only [enrichCard, hname, hlook]

/-- Witness for C5 at a concrete script, evaluator, table and cards. -/
theorem C5_portfolio_enrichment_witness :
    getPortfolioData evalObj0 [script0] = evalObj0 ⟨(script0.data.drop 22).take 6⟩ ∧
    enrichCard table0 cardFull
      = ({ cardFull with
            classes := classAdd "pdf-expanded" cardFull.classes,
            info := some ([] ++ appendedNodes entry0) }, true) ∧
    expandCards evalObj0 ["no marker here"] [cardNoName] = ([cardNoName], 0) :=
  ⟨(C5_portfolio_enrichment.2.2.1 evalObj0 script0 [] 0 22 5
      (by decide) (by decide) (by decide)).1,
   C5_portfolio_enrichment.2.2.2.2.2.2.1 table0 cardFull " Acme " entry0 []
      rfl (by decide) rfl,
   C5_portfolio_enrichment.2.2.2.2.1 evalObj0 ["no marker here"] [cardNoName]
      (by decide)⟩

/-! ### Helper lemmas: Helvetica widths of the footer strings -/

theorem strWidthU_append (a b : String) : strWidthU (a ++ b) = strWidthU a + strWidthU b := by
  unfold strWidthU
  rw [String.data_append, List.map_append, List.sum_append]

theorem digit_width {c : Char} (h : c ∈ digitCharList) : helvWidth c = 556 := by
  fin_cases h <;> rfl

theorem widthU_digit_list : ∀ l : List Char, (∀ c ∈ l, c ∈ digitCharList) →
    (l.map helvWidth).sum = 556 * l.length := by
  intro l
  induction l with
  | nil => simp
  | cons c cs ih =>
    intro h
    rw [List.map_cons, List.sum_cons, ih (fun x hx => h x (List.mem_cons_of_mem _ hx)),
      digit_width (h c (List.mem_cons_self _ _)), List.length_cons]
    ring

theorem decAux_digits : ∀ (fuel n : ℕ) (acc : List Char),
    (∀ c ∈ acc, c ∈ digitCharList) → ∀ c ∈ decAux fuel n acc, c ∈ digitCharList := by
  intro fuel
  induction fuel with
  | zero => exact fun n acc h => h
  | succ f ih =>
    intro n acc h
    show ∀ c ∈ (if n < 10 then digitChar (n % 10) :: acc
        else decAux f (n / 10) (digitChar (n % 10) :: acc)), c ∈ digitCharList
    have hacc : ∀ c ∈ digitChar (n % 10) :: acc, c ∈ digitCharList := by
      intro c hc
      rcases List.mem_cons.mp hc with rfl | hc'
      · exact digitChar_mem _ (Nat.mod_lt _ (by norm_num))
      · exact h c hc'
    by_cases h10 : n < 10
    · rw [if_pos h10]
      exact hacc
    · rw [if_neg h10]
      exact ih (n / 10) _ hacc

theorem pyDec_digits (n : ℕ) : ∀ c ∈ (pyDec n).data, c ∈ digitCharList :=
  decAux_digits (n + 1) n [] (by simp)

theorem pyDec_widthU (n : ℕ) : strWidthU (pyDec n) = 556 * (pyDec n).length := by
  unfold strWidthU
  exact widthU_digit_list (pyDec n).data (pyDec_digits n)

theorem decAux_length : ∀ (fuel n k : ℕ) (acc : List Char), n < fuel → n < 10 ^ k →
    1 ≤ k → (decAux fuel n acc).length ≤ acc.length + k := by
  intro fuel
  induction fuel with
  | zero =>
    intro n k acc hf
    exact absurd hf (Nat.not_lt_zero n)
  | succ f ih =>
    intro n k acc hf hk h1
    show (if n < 10 then digitChar (n % 10) :: acc
        else decAux f (n / 10) (digitChar (n % 10) :: acc)).length ≤ acc.length + k
    by_cases h10 : n < 10
    · rw [if_pos h10]
      rw [List.length_cons]
      omega
    · rw [if_neg h10]
      have hk2 : 2 ≤ k := by
        rcases Nat.lt_or_ge k 2 with hlt | hge
        · exfalso
          have hk1 : k = 1 := by omega
          rw [hk1, pow_one] at hk
          omega
        · exact hge
      have hdf : n / 10 < f := by
        have := Nat.div_lt_self (show 0 < n by omega) (by norm_num : 1 < 10)
        omega
      have hpow : 10 ^ (k - 1) * 10 = 10 ^ k := by
        rw [← pow_succ]
        congr 1
        omega
      have hdk : n / 10 < 10 ^ (k - 1) := by
        rw [Nat.div_lt_iff_lt_mul (by norm_num : 0 < 10), hpow]
        exact hk
      have := ih (n / 10) (k - 1) (digitChar (n % 10) :: acc) hdf hdk (by omega)
      rw [List.length_cons] at this
      omega

theorem pyDec_length_le {n k : ℕ} (hk : n < 10 ^ k) (h1 : 1 ≤ k) :
    (pyDec n).length ≤ k := by
  have := decAux_length (n + 1) n k [] (Nat.lt_succ_self n) hk h1
  simpa using this

theorem pgtxt_widthU (i total : ℕ) :
    strWidthU (pgtxt i total)
      = 4003 + 556 * ((pyDec (i + 1)).length + (pyDec total).length) := by
  unfold pgtxt
  simp only [strWidthU_append]
  rw [pyDec_widthU, pyDec_widthU,
    show strWidthU "Page " = 2613 from by decide,
    show strWidthU " of " = 1390 from by decide]
  ring

theorem month_widthU_le {m : String} (h : m ∈ months) : strWidthU m ≤ 4891 := by
  fin_cases h <;> decide

theorem widthU_of_digits {s : String} (h : ∀ c ∈ s.data, c ∈ digitCharList) :
    strWidthU s = 556 * s.length := by
  unfold strWidthU
  exact widthU_digit_list s.data h

theorem ts_widthU_le {t : TsParts} (h : t.Valid) : strWidthU t.render ≤ 14731 := by
  obtain ⟨hm, hd1, hd2, hy1, hy2, hy3, hh1, hh2, hmin1, hmin2, hap⟩ := h
  unfold TsParts.render
  simp only [strWidthU_append]
  have h1 := month_widthU_le hm
  have h2 : strWidthU t.day = 1112 := by
    rw [widthU_of_digits hd2, hd1]
  have h3 : strWidthU t.year ≤ 2224 := by
    rw [widthU_of_digits hy3]
    omega
  have h4 : strWidthU t.hour = 1112 := by
    rw [widthU_of_digits hh2, hh1]
  have h5 : strWidthU t.minute = 1112 := by
    rw [widthU_of_digits hmin2, hmin1]
  have h6 : strWidthU t.ampm = 1500 := by
    rcases hap with h | h <;> rw [h] <;> decide
  have hsp : strWidthU " " = 278 := by decide
  have hcm : strWidthU ", " = 556 := by decide
  have hat : strWidthU " at " = 1390 := by decide
  have hcl : strWidthU ":" = 278 := by decide
  omega

theorem pfx_widthU_le {t : TsParts} (h : t.Valid) :
    strWidthU (versionRun t.render) ≤ 20067 := by
  unfold versionRun
  simp only [strWidthU_append]
  have h1 := ts_widthU_le h
  have h2 : strWidthU "Version: " = 3946 := by decide
  have h3 : strWidthU "  ·  " = 1390 := by decide
  omega

/-! ### C8: footer text stays inside the footer strip -/

set_option maxRecDepth 40000 in
set_option maxHeartbeats 2000000 in
/-- C8 counterexample: the claim fails without a bound on the page count.
On an 8.5in x 14in page of a document with `10^60` pages, the insertion
point of the `Version:` run on the last page has a negative x coordinate
(the page-number text alone is wider than the page), so it is neither
nonnegative nor to the right of the left text's start. -/
theorem C8_counterexample :
    ((footerPage pageL (10 ^ 60 - 1) (10 ^ 60) ts0).ops.getD 2 dummyOp).point.x < 0 := by
  have hx : ((footerPage pageL (10 ^ 60 - 1) (10 ^ 60) ts0).ops.getD 2 dummyOp).point.x
      = pageL.rect.width - 28 - get_text_length (versionRun ts0) "helv" 6.5
        - get_text_length (pgtxt (10 ^ 60 - 1) (10 ^ 60)) "helv" 6.5 := rfl
  rw [hx]
  have hw : pageL.rect.width = 612 := by
    norm_num [pageL, legalRect, Rect.width]
  rw [hw]
  have h1 : strWidthU (versionRun ts0) = 20067 := by decide
  have h2 : strWidthU (pgtxt (10 ^ 60 - 1) (10 ^ 60)) = 71835 := by decide
  unfold get_text_length
  rw [h1, h2]
  norm_num

set_option maxHeartbeats 2000000 in
/-- C8 amended: on every 8.5in x 14in page, provided the document has fewer
than `10^55` pages, the footer ops are the strip rectangle and three runs
whose insertion points all lie inside the strip: the left text starts at
x = 28; the `Version:` run starts at `x = width - 28 - pw - gw`, which is
nonnegative and strictly right of 28; the page run starts at that x plus
`pw`, within the page width; and the shared baseline
`y = height - FOOTER_H_PT/2 + 2` lies strictly between the strip top and
the page bottom. (With enough pages the right-hand x turns negative, hence
the page-count bound.) -/
theorem C8_footer_text_in_bounds (p : Page) (i total : ℕ) (t : TsParts)
    (hrect : p.rect = legalRect) (hi : i < total) (htot : total < 10 ^ 55)
    (hv : t.Valid) :
    (footerPage p i total t.render).ops.drop p.ops.length
      = [ Op.drawRect ⟨0, 1008 - FOOTER_H_PT, 612, 1008⟩ none (some BLACK),
          Op.insertText ⟨28, 1008 - FOOTER_H_PT / 2 + 2⟩ left_txt "helv" 6.5 GREY_MED,
          Op.insertText ⟨612 - 28 - get_text_length (versionRun t.render) "helv" 6.5
                - get_text_length (pgtxt i total) "helv" 6.5,
              1008 - FOOTER_H_PT / 2 + 2⟩ (versionRun t.render) "helv" 6.5 GREY_MED,
          Op.insertText ⟨612 - 28 - get_text_length (versionRun t.render) "helv" 6.5
                - get_text_length (pgtxt i total) "helv" 6.5
                + get_text_length (versionRun t.render) "helv" 6.5,
              1008 - FOOTER_H_PT / 2 + 2⟩ (pgtxt i total) "helv" 6.5 CERULEAN ] ∧
    0 ≤ 612 - 28 - get_text_length (versionRun t.render) "helv" 6.5
        - get_text_length (pgtxt i total) "helv" 6.5 ∧
    28 < 612 - 28 - get_text_length (versionRun t.render) "helv" 6.5
        - get_text_length (pgtxt i total) "helv" 6.5 ∧
    0 ≤ 612 - 28 - get_text_length (versionRun t.render) "helv" 6.5
        - get_text_length (pgtxt i total) "helv" 6.5
        + get_text_length (versionRun t.render) "helv" 6.5 ∧
    612 - 28 - get_text_length (versionRun t.render) "helv" 6.5
        - get_text_length (pgtxt i total) "helv" 6.5
        + get_text_length (versionRun t.render) "helv" 6.5 ≤ 612 ∧
    1008 - FOOTER_H_PT < 1008 - FOOTER_H_PT / 2 + 2 ∧
    (1008 : ℚ) - FOOTER_H_PT / 2 + 2 < 1008 := by
  have hL1 : (pyDec (i + 1)).length ≤ 55 :=
    pyDec_length_le (by omega) (by norm_num)
  have hL2 : (pyDec total).length ≤ 55 :=
    pyDec_length_le htot (by norm_num)
  have hU2 : strWidthU (pgtxt i total) ≤ 65163 := by
    rw [pgtxt_widthU]
    omega
  have hU1 : strWidthU (versionRun t.render) ≤ 20067 := pfx_widthU_le hv
  have hq1 : (strWidthU (versionRun t.render) : ℚ) ≤ 20067 := by
    exact_mod_cast hU1
  have hq2 : (strWidthU (pgtxt i total) : ℚ) ≤ 65163 := by
    exact_mod_cast hU2
  have hq1' : (0 : ℚ) ≤ (strWidthU (versionRun t.render) : ℚ) := Nat.cast_nonneg _
  have hq2' : (0 : ℚ) ≤ (strWidthU (pgtxt i total) : ℚ) := Nat.cast_nonneg _
  have hfpt : FOOTER_H_PT = 3600 / 127 := by
    norm_num [FOOTER_H_PT, FOOTER_H_MM]
  refine ⟨?_, ?_, ?_, ?_, ?_, ?_, ?_⟩
  · rw [footerPage_ops, List.drop_left]
    rw [hrect]
    norm_num [legalRect, Rect.width, Rect.height]
  · unfold get_text_length
    linarith
  · unfold get_text_length
    linarith
  · unfold get_text_length
    linarith
  · unfold get_text_length
    linarith
  · rw [hfpt]
    norm_num
  · rw [hfpt]
    norm_num

/-- Witness for C8 (amended) at a concrete page, timestamp and page count. -/
theorem C8_footer_text_in_bounds_witness :
    28 < 612 - 28
        - get_text_length (versionRun (TsParts.mk "September" "30" "2026" "12" "59" "PM").render)
            "helv" 6.5
        - get_text_length (pgtxt 0 1) "helv" 6.5 :=
  (C8_footer_text_in_bounds pageL 0 1 (TsParts.mk "September" "30" "2026" "12" "59" "PM")
    rfl (by decide) (by decide) (by decide)).2.2.1

end GenPdf
